import Mathlib

/-!
Shallow embedding of the intelligent-search core of the `mcp-awesome-copilot`
server (intent classifier `intentRouter.ts`, search orchestrator, and
telemetry aggregator `telemetry.ts`), together with theorems settling the
specification claims about it.

Modelling conventions:
* JavaScript numbers are modelled as `ℚ` (exact arithmetic).
* `Date.now()` and `new Date().toISOString()` (wall-clock reads) are modelled
  as the constants `0` and `""`: no claim depends on real time.
* `Array.prototype.sort` with a consistent comparator is, per ES2019, a
  stable sort ordered by the comparator; it is modelled as a stable
  insertion sort over the relation `cmp a b ≤ 0`.
* `RegExp.prototype.test` (unanchored boolean search) is modelled by an
  executable Brzozowski-derivative matcher quantified over all substrings.
* Fallible asynchronous calls (`Promise` rejection) are modelled with
  `Option`: `none` is a rejected call.
-/

/-!
Rational arithmetic: the `ℚ` operations of Batteries/Mathlib are
`@[irreducible]`, so kernel evaluation (`decide`) cannot unfold them.  The
embedding therefore uses the following kernel-evaluable equivalents; the
`q*_eq` theorems below prove each equal to the mathematical operation.
-/

/-- Kernel-evaluable addition on `ℚ`. -/
def qadd (a b : ℚ) : ℚ := mkRat (a.num * b.den + b.num * a.den) (a.den * b.den)

/-- Kernel-evaluable subtraction on `ℚ`. -/
def qsub (a b : ℚ) : ℚ := mkRat (a.num * b.den - b.num * a.den) (a.den * b.den)

/-- Kernel-evaluable multiplication on `ℚ`. -/
def qmul (a b : ℚ) : ℚ := mkRat (a.num * b.num) (a.den * b.den)

/-- Kernel-evaluable division on `ℚ`. -/
def qdiv (a b : ℚ) : ℚ := Rat.divInt (a.num * b.den) (a.den * b.num)

/-- Kernel-evaluable strict order on `ℚ` (definitionally `a < b`). -/
def qlt (a b : ℚ) : Bool := Rat.blt a b

/-- Kernel-evaluable order on `ℚ` (definitionally `a ≤ b`). -/
def qle (a b : ℚ) : Bool := !(Rat.blt b a)

/-- Kernel-evaluable `Math.min` on `ℚ`. -/
def qmin (a b : ℚ) : ℚ := if qlt b a then b else a

/-- Kernel-evaluable cast `ℕ → ℚ`. -/
def qnat (n : Nat) : ℚ := mkRat n 1

/-- Kernel-evaluable cast `ℤ → ℚ`. -/
def qint (i : ℤ) : ℚ := mkRat i 1

/-- Kernel-evaluable floor on `ℚ`. -/
def qfloor (q : ℚ) : ℤ := q.num / q.den

/-- JS `Math.round`: `⌊x + 1/2⌋` (round half toward +∞). -/
def jsRound (q : ℚ) : ℤ := qfloor (qadd q (mkRat 1 2))

/-- JS `a || b` on strings: `""` is falsy. -/
def jsOrStr (a : Option String) (b : String) : String :=
  match a with
  | none => b
  | some s => if s = "" then b else s

/-- JS `Array.prototype.sort cmp` (ES2019: stable, ordered by the
comparator), modelled as stable insertion sort over `cmp a b ≤ 0`. -/
def jsStableSort {α : Type} (cmp : α → α → ℚ) (l : List α) : List α :=
  l.insertionSort (fun a b => cmp a b ≤ 0)

/-- The last `n` elements of a list, in order (spec-side notion of
"the last `n` events"). -/
def lastN {α : Type} (l : List α) (n : Nat) : List α := l.drop (l.length - n)

/- ### Telemetry aggregator (`telemetry.ts`) -/

/-- `'mcp' | 'web'` source tag of a telemetry event or search result. -/
inductive EvSource where
  | mcp
  | web
deriving DecidableEq, Repr

/-- The five telemetry event kinds. -/
inductive EvType where
  | mcp_consulted
  | mcp_resources_found
  | mcp_resources_not_found
  | fallback_to_web
  | search_completed
deriving DecidableEq, Repr

/-- Optional metadata attached to a telemetry event. -/
structure EvMetadata where
  intent : Option String := none
  confidence : Option ℚ := none
  resourceTypes : Option (List String) := none
  fallbackReason : Option String := none
  searchPath : Option (List String) := none
deriving DecidableEq, Repr

/-- A recorded telemetry event (interface `TelemetryEvent`). -/
structure TelemetryEvent where
  timestamp : String
  eventType : EvType
  query : String
  source : EvSource
  resultCount : Nat
  success : Bool
  duration : ℚ
  metadata : Option EvMetadata := none
deriving DecidableEq, Repr

/-- The argument of `trackEvent`: an event without its timestamp
(`Omit<TelemetryEvent, 'timestamp'>`). -/
structure EventInput where
  eventType : EvType
  query : String
  source : EvSource
  resultCount : Nat
  success : Bool
  duration : ℚ
  metadata : Option EvMetadata := none
deriving DecidableEq, Repr

/-- `{ ...event, timestamp: new Date().toISOString() }`; the wall-clock
timestamp is modelled as the constant `""`. -/
def mkTimestamped (e : EventInput) : TelemetryEvent :=
  { timestamp := ""
    eventType := e.eventType
    query := e.query
    source := e.source
    resultCount := e.resultCount
    success := e.success
    duration := e.duration
    metadata := e.metadata }

/-- Mutable state of a `TelemetryService` instance. -/
structure TelemetryState where
  events : List TelemetryEvent := []
  enabled : Bool := true
deriving DecidableEq, Repr

/-- `TelemetryService.trackEvent`: no-op when disabled; otherwise append the
timestamped event and, if the log exceeds 1000 entries, keep only the last
1000 (`this.events.slice(-1000)`). -/
def trackEvent (e : EventInput) (s : TelemetryState) : TelemetryState :=
  if !s.enabled then s
  else
    let l := s.events ++ [mkTimestamped e]
    { s with events := if l.length > 1000 then l.drop (l.length - 1000) else l }

/-- Fold a sequence of `trackEvent` calls over a telemetry state. -/
def applyEvents (es : List EventInput) (s : TelemetryState) : TelemetryState :=
  es.foldl (fun st e => trackEvent e st) s

/-- `TelemetryService.trackMCPConsultation`. -/
def trackMCPConsultation (query : String) (duration : ℚ) (metadata : Option EvMetadata)
    (s : TelemetryState) : TelemetryState :=
  trackEvent
    { eventType := .mcp_consulted
      query := query
      source := .mcp
      resultCount := 0
      success := true
      duration := duration
      metadata := metadata } s

/-- `TelemetryService.trackMCPResourcesFound` (`{...metadata, resourceTypes}`). -/
def trackMCPResourcesFound (query : String) (resultCount : Nat) (duration : ℚ)
    (resourceTypes : List String) (metadata : Option EvMetadata)
    (s : TelemetryState) : TelemetryState :=
  trackEvent
    { eventType := .mcp_resources_found
      query := query
      source := .mcp
      resultCount := resultCount
      success := true
      duration := duration
      metadata := some { metadata.getD {} with resourceTypes := some resourceTypes } } s

/-- `TelemetryService.trackMCPResourcesNotFound`
(`fallbackReason: reason || 'No matching resources found'`). -/
def trackMCPResourcesNotFound (query : String) (duration : ℚ) (reason : Option String)
    (metadata : Option EvMetadata) (s : TelemetryState) : TelemetryState :=
  trackEvent
    { eventType := .mcp_resources_not_found
      query := query
      source := .mcp
      resultCount := 0
      success := false
      duration := duration
      metadata :=
        some { metadata.getD {} with
                 fallbackReason := some (jsOrStr reason "No matching resources found") } } s

/-- `TelemetryService.trackFallbackToWeb`. -/
def trackFallbackToWeb (query : String) (mcpResultCount : Nat) (duration : ℚ)
    (reason : String) (metadata : Option EvMetadata) (s : TelemetryState) : TelemetryState :=
  trackEvent
    { eventType := .fallback_to_web
      query := query
      source := .web
      resultCount := mcpResultCount
      success := true
      duration := duration
      metadata :=
        some { metadata.getD {} with
                 fallbackReason := some reason
                 searchPath := some ["mcp", "web"] } } s

/-- `TelemetryService.trackSearchCompleted`. -/
def trackSearchCompleted (query : String) (totalResults : Nat) (duration : ℚ)
    (sources : List String) (metadata : Option EvMetadata)
    (s : TelemetryState) : TelemetryState :=
  trackEvent
    { eventType := .search_completed
      query := query
      source := if "mcp" ∈ sources then .mcp else .web
      resultCount := totalResults
      success := totalResults > 0
      duration := duration
      metadata := some { metadata.getD {} with searchPath := some sources } } s

/-- `TelemetryService.getRecentEvents`: `this.events.slice(-limit)`.
For a nonnegative integer `limit`, JS `slice(-limit)` starts at
`max(length - limit, 0)` when `limit > 0`, but at index `0` when
`limit = 0` (since `-0 === 0`), returning the whole array. -/
def getRecentEvents (events : List TelemetryEvent) (limit : Nat) : List TelemetryEvent :=
  if limit = 0 then events else events.drop (events.length - limit)

/-- `TelemetryService.clearData`. -/
def clearData (s : TelemetryState) : TelemetryState := { s with events := [] }

/-- `TelemetryService.setEnabled`. -/
def setEnabled (b : Bool) (s : TelemetryState) : TelemetryState := { s with enabled := b }

/-- One entry of `TelemetryStats.topQueries`. -/
structure TopQuery where
  query : String
  count : Nat
  successRate : ℚ
deriving DecidableEq, Repr

/-- One entry of `TelemetryStats.resourceGaps`. -/
structure ResourceGap where
  query : String
  attempts : Nat
  reason : String
deriving DecidableEq, Repr

/-- Interface `TelemetryStats`. -/
structure TelemetryStats where
  totalConsultations : Nat := 0
  successfulMCPConsultations : Nat := 0
  unsuccessfulMCPConsultations : Nat := 0
  fallbackToWebCount : Nat := 0
  averageResponseTime : ℤ := 0
  topQueries : List TopQuery := []
  resourceGaps : List ResourceGap := []
  improvementSuggestions : List String := []
deriving DecidableEq, Repr

/-- One step of the `queryMap` aggregation: bump `(count, successful)` for
`event.query`, inserting at the end on first sight (JS `Map` preserves
insertion order). -/
def bumpQuery (m : List (String × Nat × Nat)) (q : String) (succ : Bool) :
    List (String × Nat × Nat) :=
  match m with
  | [] => [(q, 1, if succ then 1 else 0)]
  | (k, c, sc) :: rest =>
    if k = q then (k, c + 1, if succ then sc + 1 else sc) :: rest
    else (k, c, sc) :: bumpQuery rest q succ

/-- The per-distinct-query aggregation built by `getStats`. -/
def buildQueryMap (events : List TelemetryEvent) : List (String × Nat × Nat) :=
  events.foldl (fun m e => bumpQuery m e.query e.success) []

/-- JS `String.prototype.includes`: substring occurrence test. -/
def listIsInfix (needle hay : List Char) : Bool :=
  hay.tails.any fun t => needle.isPrefixOf t

/-- Substring test on strings (`hay.includes(needle)`). -/
def strContains (hay needle : String) : Bool :=
  listIsInfix needle.toList hay.toList

/-- Lowercase a string character by character (JS `toLowerCase` on ASCII). -/
def strToLower (s : String) : String :=
  ⟨s.toList.map Char.toLower⟩

/-- `generateImprovementSuggestions`, rule 1: high fallback rate. -/
def suggestionRuleFallback (stats : TelemetryStats) : List String :=
  if stats.fallbackToWebCount > stats.successfulMCPConsultations then
    ["Consider expanding curated content - high fallback rate to web search detected"]
  else []

/-- `generateImprovementSuggestions`, rule 2: top resource gap. -/
def suggestionRuleGap (stats : TelemetryStats) : List String :=
  match stats.resourceGaps with
  | topGap :: _ =>
    ["Most requested missing content: \"" ++ topGap.query ++ "\" (" ++
      toString topGap.attempts ++ " failed attempts)"]
  | [] => []

/-- `generateImprovementSuggestions`, rule 3: slow responses. -/
def suggestionRulePerf (stats : TelemetryStats) : List String :=
  if stats.averageResponseTime > 1000 then
    ["Consider optimizing search performance - average response time exceeds 1 second"]
  else []

/-- `generateImprovementSuggestions`, rule 4: technology-flavored top query
with a low success rate. -/
def suggestionRuleTech (stats : TelemetryStats) : List String :=
  let techQueries := stats.topQueries.filter fun q =>
    strContains (strToLower q.query) "java" || strContains (strToLower q.query) "spring" ||
    strContains (strToLower q.query) "react" || strContains (strToLower q.query) "python"
  match techQueries with
  | t :: _ =>
    if qlt t.successRate (mkRat 5 10) then
      ["Low success rate for " ++ t.query ++ " queries - consider adding more content"]
    else []
  | [] => []

/-- `generateImprovementSuggestions`, rule 5: overall success ratio
(evaluated only once more than 10 consultations were recorded). -/
def suggestionRuleRatio (stats : TelemetryStats) : List String :=
  if stats.totalConsultations > 10 then
    let successRate : ℚ :=
      qdiv (qnat stats.successfulMCPConsultations) (qnat stats.totalConsultations)
    if qlt successRate (mkRat 3 10) then
      ["Low overall success rate - repository may need broader content coverage"]
    else if qlt (mkRat 8 10) successRate then
      ["High MCP success rate - users are finding valuable curated content"]
    else []
  else []

/-- `TelemetryService.generateImprovementSuggestions`: the five heuristic
rules, each appending one suggestion string when it fires. -/
def generateImprovementSuggestions (stats : TelemetryStats) : List String :=
  suggestionRuleFallback stats ++ suggestionRuleGap stats ++ suggestionRulePerf stats ++
    suggestionRuleTech stats ++ suggestionRuleRatio stats

/-- `TelemetryService.getStats` as a function of the event log. -/
def getStats (events : List TelemetryEvent) : TelemetryStats :=
  if events.length = 0 then {}
  else
    let queryMap := buildQueryMap events
    let durations := (events.filter fun e => qlt 0 e.duration).map (·.duration)
    let base : TelemetryStats :=
      { totalConsultations := (events.filter fun e => e.eventType = .mcp_consulted).length
        successfulMCPConsultations :=
          (events.filter fun e => e.eventType = .mcp_resources_found).length
        unsuccessfulMCPConsultations :=
          (events.filter fun e => e.eventType = .mcp_resources_not_found).length
        fallbackToWebCount := (events.filter fun e => e.eventType = .fallback_to_web).length
        averageResponseTime :=
          if durations.length > 0 then
            jsRound (qdiv (durations.foldl qadd 0) (qnat durations.length))
          else 0
        topQueries :=
          (jsStableSort (fun a b => qsub (qnat b.count) (qnat a.count))
            (queryMap.map fun kv =>
              { query := kv.1
                count := kv.2.1
                successRate :=
                  if kv.2.1 > 0 then
                    qdiv (qint (jsRound (qmul (qdiv (qnat kv.2.2) (qnat kv.2.1)) (qnat 100))))
                      (qnat 100)
                  else 0 })).take 10
        resourceGaps :=
          ((queryMap.filter fun kv => kv.2.1 ≥ 2 ∧ kv.2.2 = 0).map fun kv =>
            { query := kv.1
              attempts := kv.2.1
              reason := "No matching curated content found" }).take 5
        improvementSuggestions := [] }
    { base with improvementSuggestions := generateImprovementSuggestions base }

/- ### A tiny executable regex engine (Brzozowski derivatives)

`RegExp.prototype.test` is an unanchored boolean search: the regex matches
if some substring matches.  All intent patterns in `intentRouter.ts` use
only literals, `\s+`, `\w+`, `?`-optionals, bounded repetition and
alternation, which this engine covers exactly. -/

/-- Regular expressions over `Char`, with character predicates. -/
inductive Reg where
  | emp
  | eps
  | pred (p : Char → Bool)
  | seq (r₁ r₂ : Reg)
  | alt (r₁ r₂ : Reg)
  | star (r : Reg)

/-- Does the regex accept the empty string? -/
def Reg.nullable : Reg → Bool
  | .emp => false
  | .eps => true
  | .pred _ => false
  | .seq r₁ r₂ => r₁.nullable && r₂.nullable
  | .alt r₁ r₂ => r₁.nullable || r₂.nullable
  | .star _ => true

/-- Smart sequencing (collapses `emp` and `eps`). -/
def Reg.mkSeq : Reg → Reg → Reg
  | .emp, _ => .emp
  | .eps, r => r
  | r₁, r₂ => .seq r₁ r₂

/-- Smart alternation (collapses `emp`). -/
def Reg.mkAlt : Reg → Reg → Reg
  | .emp, r => r
  | r₁, r₂ => .alt r₁ r₂

/-- Brzozowski derivative by one character. -/
def Reg.deriv (c : Char) : Reg → Reg
  | .emp => .emp
  | .eps => .emp
  | .pred p => if p c then .eps else .emp
  | .seq r₁ r₂ =>
    if r₁.nullable then .mkAlt (.mkSeq (r₁.deriv c) r₂) (r₂.deriv c)
    else .mkSeq (r₁.deriv c) r₂
  | .alt r₁ r₂ => .mkAlt (r₁.deriv c) (r₂.deriv c)
  | .star r => .mkSeq (r.deriv c) (.star r)

/-- Does some prefix of `s` match `r`? -/
def acceptsPrefix : Reg → List Char → Bool
  | r, [] => r.nullable
  | r, c :: cs => r.nullable || acceptsPrefix (r.deriv c) cs

/-- JS `regex.test(s)`: some substring of `s` matches `r`. -/
def rtest (r : Reg) (s : List Char) : Bool :=
  s.tails.any fun t => acceptsPrefix r t

/-- JS `\w`: `[A-Za-z0-9_]`. -/
def isWordChar (c : Char) : Bool := c.isAlphanum || c = '_'

/-- JS `\s` (the ASCII part, which is all the queries use). -/
def isSpaceChar (c : Char) : Bool :=
  c = ' ' || c = '\t' || c = '\n' || c = '\r' || c = Char.ofNat 11 || c = Char.ofNat 12

/-- Single literal character. -/
def rchar (c : Char) : Reg := .pred (· == c)

/-- Literal string. -/
def rstr (s : String) : Reg := s.toList.foldr (fun c r => Reg.seq (rchar c) r) .eps

/-- Sequencing of a list of regexes. -/
def rcat (l : List Reg) : Reg := l.foldr .seq .eps

/-- Alternation of a list of regexes. -/
def ralt (l : List Reg) : Reg := l.foldr .alt .emp

/-- `\s+`. -/
def rws : Reg := .seq (.pred isSpaceChar) (.star (.pred isSpaceChar))

/-- `\w+`. -/
def rword : Reg := .seq (.pred isWordChar) (.star (.pred isWordChar))

/-- `r?`. -/
def ropt (r : Reg) : Reg := .alt .eps r

/-- `(?:r){0,2}`. -/
def rep02 (r : Reg) : Reg := ropt (.seq r (ropt r))

/- ### Intent classifier (`intentRouter.ts`) -/

/-- The fixed enumeration of intent categories. -/
inductive IntentType where
  | best_practices
  | how_to_build
  | architecture_guidance
  | code_patterns
  | framework_setup
  | debugging_help
  | general_question
deriving DecidableEq, Repr

/-- The name of an intent category (for interpolated reasoning strings). -/
def intentTypeStr : IntentType → String
  | .best_practices => "best_practices"
  | .how_to_build => "how_to_build"
  | .architecture_guidance => "architecture_guidance"
  | .code_patterns => "code_patterns"
  | .framework_setup => "framework_setup"
  | .debugging_help => "debugging_help"
  | .general_question => "general_question"

/-- `IntentRouter.intentPatterns`, in object-literal insertion order (the
order `Object.entries` iterates). -/
def intentPatterns : List (IntentType × List Reg) :=
  [ (.best_practices,
      [ rcat [rstr "best", rws, rstr "practice", ropt (rchar 's')]
      , rcat [rstr "coding", rws, rstr "standard", ropt (rchar 's')]
      , rcat [rstr "convention", ropt (rchar 's')]
      , rcat [rstr "guideline", ropt (rchar 's')]
      , rcat [rstr "recommended", rws, rstr "approach"]
      , rcat [rstr "how", rws, rstr "should", rws, rstr "i", rws, rstr "structure"]
      , rcat [rstr "proper", rws, rstr "way", rws, rstr "to"]
      , rcat [rstr "standard", rws, rstr "way", rws, rstr "to"]
      , rcat [rstr "optimization", rws, rstr "practices"]
      , rcat [rstr "performance", rws, rstr "best", rws, rstr "practices"]
      , rcat [rstr "security", rws, rstr "best", rws, rstr "practices"]
      , rcat [rstr "testing", rws, rstr "strategies"]
      , rcat [rstr "clean", rws, rstr "code"] ])
  , (.how_to_build,
      [ rcat [rstr "how", rws, rstr "to", rws,
              ralt [rstr "build", rstr "create", rstr "make", rstr "setup",
                    rcat [rstr "set", rws, rstr "up"]]]
      , rcat [rstr "build", rws, rstr "a", rws, rstr "new"]
      , rcat [rstr "create", rws, rstr "a", rws, rstr "new"]
      , rcat [rstr "setup", rws, ropt (rcat [rstr "a", rws]), rstr "new"]
      , rcat [rstr "getting", rws, rstr "started", rws, rstr "with"]
      , rcat [rstr "initialize", rws, ropt (rcat [rstr "a", rws]), rstr "new"]
      , rstr "scaffold" ])
  , (.architecture_guidance,
      [ rstr "architecture"
      , rcat [rstr "design", rws, rstr "pattern", ropt (rchar 's')]
      , rcat [rstr "project", rws, rstr "structure"]
      , rcat [rstr "folder", rws, rstr "structure"]
      , rcat [rstr "organize", rws, rstr "my", rws, ralt [rstr "code", rstr "project"]]
      , rcat [rstr "microservice", ropt (rchar 's')]
      , rcat [rstr "system", rws, rstr "design"]
      , rcat [rstr "application", rws, rstr "structure"] ])
  , (.code_patterns,
      [ rcat [rstr "pattern", ropt (rchar 's'), rws, rstr "for"]
      , rcat [rstr "example", ropt (rchar 's'), rws, rstr "of"]
      , rstr "template"
      , rstr "boilerplate"
      , rstr "snippet"
      , rcat [rstr "sample", rws, rstr "code"]
      , rcat [rstr "code", rws, rstr "example"] ])
  , (.framework_setup,
      [ rcat [rstr "spring", rws, rstr "boot"]
      , rcat [rstr "react", rws, rstr "app"]
      , rcat [rstr "vue", rws, rstr "project"]
      , rcat [rstr "angular", rws, rstr "app"]
      , rcat [rstr "express", rws, rstr "server"]
      , rcat [rstr "django", rws, rstr "project"]
      , rcat [rstr "rails", rws, rstr "app"]
      , rcat [rstr "setup", rws, rword, rws, rstr "with"]
      , rcat [rstr "ci/cd", rws, rstr "pipeline"]
      , rcat [rstr "deployment", rws, rstr "setup"]
      , rcat [rstr "configuration", rws, rstr "setup"]
      , rcat [rstr "project", rws, rstr "setup"]
      , rcat [rstr "environment", rws, rstr "setup"] ])
  , (.debugging_help,
      [ rstr "debug"
      , rcat [rstr "fix", rws, ropt (rcat [rstr "this", rws]), rstr "error"]
      , rstr "troubleshoot"
      , rcat [rstr "not", rws, rstr "working"]
      , rcat [rstr "issue", rws, rstr "with"]
      , rcat [rstr "problem", rws, rstr "with"]
      , rcat [rstr "why", rws, ralt [rstr "is", rstr "does"]] ]) ]

/-- `IntentRouter.technologyKeywords`. -/
def technologyKeywords : List String :=
  [ "java", "javascript", "typescript", "python", "csharp", "c#", "kotlin", "scala", "go", "rust"
  , "php", "ruby", "swift", "objective-c", "dart", "clojure"
  , "spring", "springboot", "spring boot", "react", "vue", "angular", "express", "django", "rails"
  , "flask", "fastapi", "laravel", "symfony", "gin", "echo", "actix", "tokio", "flutter"
  , "react native", "nextjs", "nuxt", "svelte", "blazor", "xamarin"
  , "docker", "kubernetes", "microservices", "api", "rest", "graphql", "grpc", "oauth", "jwt"
  , "redis", "mongodb", "postgresql", "mysql", "elasticsearch", "kafka", "rabbitmq"
  , "aws", "azure", "gcp", "terraform", "bicep", "cloudformation", "serverless" ]

/-- JS `String.prototype.trim` (ASCII whitespace). -/
def trimChars (s : List Char) : List Char :=
  ((s.dropWhile isSpaceChar).reverse.dropWhile isSpaceChar).reverse

/-- JS `split(/\s+/)` on a trimmed string: the maximal whitespace-free runs. -/
def splitWsAux : List Char → List Char → List (List Char)
  | cur, [] => if cur.isEmpty then [] else [cur.reverse]
  | cur, c :: cs =>
    if isSpaceChar c then
      if cur.isEmpty then splitWsAux [] cs
      else cur.reverse :: splitWsAux [] cs
    else splitWsAux (c :: cur) cs

/-- JS `split(/\s+/)` on a trimmed string. -/
def splitWs (s : List Char) : List (List Char) := splitWsAux [] s

/-- Longest accepted prefix length of `s`, subject (when `eb` is set) to a
trailing `\b`: all uses end in a `\w` character, so the boundary holds iff
the next character is absent or not a word character.  `i` counts characters
already consumed, `best` the best length seen so far. -/
def bestLen : Reg → Bool → List Char → Nat → Option Nat → Option Nat
  | r, _, [], i, best => if r.nullable then some i else best
  | r, eb, c :: cs, i, best =>
    let best := if r.nullable && (!eb || !isWordChar c) then some i else best
    bestLen (r.deriv c) eb cs (i + 1) best

/-- JS `String.prototype.match` with a global regex: scan left to right,
taking at each position the (greedy) match if any, then resuming after it.
`sb`/`eb` encode a leading/trailing `\b` (all uses start and end in `\w`
characters, so the boundary is a check on the neighbouring character);
`prev` is the character before the current position.  The `fuel` argument
only makes the recursion structural (every call consumes at least one
character, so `s.length + 1` fuel never runs out). -/
def jsMatchAllAux (sb eb : Bool) (r : Reg) :
    Nat → Option Char → List Char → List (List Char)
  | 0, _, _ => []
  | _ + 1, _, [] => []
  | fuel + 1, prev, c :: cs =>
    let startOk := !sb || (match prev with | none => true | some p => !isWordChar p)
    match (if startOk then bestLen r eb (c :: cs) 0 none else none) with
    | some (k + 1) =>
      (c :: cs).take (k + 1) ::
        jsMatchAllAux sb eb r fuel ((c :: cs).get? k) ((c :: cs).drop (k + 1))
    | _ => jsMatchAllAux sb eb r fuel (some c) cs

/-- All matches of a global regex in a string. -/
def jsMatchAll (sb eb : Bool) (r : Reg) (s : List Char) : List (List Char) :=
  jsMatchAllAux sb eb r (s.length + 1) none s

/-- `/(?:best|good|proper|standard|recommended)\s+\w+/gi`. -/
def keyPhraseRegA : Reg :=
  rcat [ralt [rstr "best", rstr "good", rstr "proper", rstr "standard", rstr "recommended"],
        rws, rword]

/-- `/\b\w+(?:\s+\w+){0,2}\s+(?:pattern|practice|approach|way|method)\b/gi`
(without the boundary markers, which `jsMatchAll` handles). -/
def keyPhraseRegB : Reg :=
  rcat [rword, rep02 (.seq rws rword), rws,
        ralt [rstr "pattern", rstr "practice", rstr "approach", rstr "way", rstr "method"]]

/-- `/\b(?:build|create|setup|configure|implement)\s+\w+(?:\s+\w+){0,2}/gi`
(without the leading boundary marker). -/
def keyPhraseRegC : Reg :=
  rcat [ralt [rstr "build", rstr "create", rstr "setup", rstr "configure", rstr "implement"],
        rws, rword, rep02 (.seq rws rword)]

/-- `phrase.toLowerCase().replace(/[^\w\s]/g, '').trim()`. -/
def cleanPhrase (p : List Char) : String :=
  ⟨trimChars ((p.map Char.toLower).filter fun c => isWordChar c || isSpaceChar c)⟩

/-- JS `Set.add` on an insertion-ordered list of strings. -/
def pushIfNew (l : List String) (x : String) : List String :=
  if x ∈ l then l else l ++ [x]

/-- `IntentRouter.generateSearchTerms` (the argument is the normalized
query, which is already trimmed and lowercase). -/
def generateSearchTerms (query : List Char) (techKeywords : List String) : List String :=
  let terms := techKeywords.foldl pushIfNew []
  let keyPhrases :=
    jsMatchAll false false keyPhraseRegA query ++
    jsMatchAll true true keyPhraseRegB query ++
    jsMatchAll true false keyPhraseRegC query
  let terms := keyPhrases.foldl
    (fun acc ph =>
      let cleaned := cleanPhrase ph
      if cleaned.length > 3 then pushIfNew acc cleaned else acc) terms
  let terms :=
    if terms.length = 0 then
      (((splitWs (query.map Char.toLower)).map fun w => (⟨w⟩ : String)).filter
        (fun w => w.length > 3 ∧
          w ∉ ["the", "and", "for", "with", "that", "this", "how"])).take 3
        |>.foldl pushIfNew terms
    else terms
  terms.take 5

/-- Interface `MCPPreferences`. -/
structure MCPPreferences where
  mcpFirst : Bool
  mcpOnlyForBestPractices : Bool
  fallbackToWeb : Bool
  minConfidenceThreshold : ℚ
deriving DecidableEq, Repr

/-- `IntentRouter.defaultPreferences` (the same values are also the
`SearchRouter` constructor defaults). -/
def defaultPreferences : MCPPreferences :=
  { mcpFirst := true
    mcpOnlyForBestPractices := false
    fallbackToWeb := true
    minConfidenceThreshold := mkRat 6 10 }

/-- `Partial<MCPPreferences>`. -/
structure PartialPrefs where
  mcpFirst : Option Bool := none
  mcpOnlyForBestPractices : Option Bool := none
  fallbackToWeb : Option Bool := none
  minConfidenceThreshold : Option ℚ := none
deriving DecidableEq, Repr

/-- `{ ...this.defaultPreferences, ...preferences }`. -/
def mergePrefs (p : PartialPrefs) : MCPPreferences :=
  { mcpFirst := p.mcpFirst.getD defaultPreferences.mcpFirst
    mcpOnlyForBestPractices :=
      p.mcpOnlyForBestPractices.getD defaultPreferences.mcpOnlyForBestPractices
    fallbackToWeb := p.fallbackToWeb.getD defaultPreferences.fallbackToWeb
    minConfidenceThreshold :=
      p.minConfidenceThreshold.getD defaultPreferences.minConfidenceThreshold }

/-- View a full preference record as a `Partial` with every field present
(this is what `SearchRouter.search` passes to `createSearchStrategy`). -/
def MCPPreferences.toPartial (p : MCPPreferences) : PartialPrefs :=
  { mcpFirst := some p.mcpFirst
    mcpOnlyForBestPractices := some p.mcpOnlyForBestPractices
    fallbackToWeb := some p.fallbackToWeb
    minConfidenceThreshold := some p.minConfidenceThreshold }

/-- Interface `QueryIntent`. -/
structure QueryIntent where
  shouldUseMCP : Bool
  confidence : ℚ
  intentType : IntentType
  suggestedSearchTerms : List String
  reasoning : String
deriving DecidableEq, Repr

/-- Number of patterns of a family matching the normalized query
(`patterns.filter(p => p.test(normalizedQuery)).length`). -/
def countMatches (pats : List Reg) (s : List Char) : Nat :=
  (pats.filter fun p => rtest p s).length

/-- One iteration of the best-match loop in `analyzeIntent`: adopt this
category iff it has at least one matching pattern and its candidate
confidence strictly exceeds the current best. -/
def bestStep (s : List Char) (b : IntentType × ℚ) (cat : IntentType × List Reg) :
    IntentType × ℚ :=
  let m := countMatches cat.2 s
  if m > 0 then
    let confidence := qmin (mkRat 9 10) (qadd (mkRat 3 10) (qmul (qnat m) (mkRat 2 10)))
    if qlt b.2 confidence then (cat.1, confidence) else b
  else b

/-- The `bestMatch` computed by `analyzeIntent`, starting from
`{ type: "general_question", confidence: 0 }`. -/
def bestMatchOf (s : List Char) : IntentType × ℚ :=
  intentPatterns.foldl (bestStep s) (.general_question, 0)

/-- The technology keywords present as substrings of the normalized query. -/
def matchedKeywords (s : List Char) : List String :=
  technologyKeywords.filter fun k => listIsInfix (strToLower k).toList s

/-- Fixed-point rendering used in interpolated reasoning strings
(`confidence.toFixed(2)`); display-only. -/
def jsToFixed2 (x : ℚ) : String :=
  let n := jsRound (x * 100)
  let m := n.natAbs
  let frac := m % 100
  (if n < 0 then "-" else "") ++ toString (m / 100) ++ "." ++
    (if frac < 10 then "0" ++ toString frac else toString frac)

/-- `(x).toFixed(0)`; display-only. -/
def jsToFixed0 (x : ℚ) : String := toString (jsRound x)

/-- `query.toLowerCase().trim()`. -/
def normalizeQuery (query : String) : List Char :=
  trimChars (query.toList.map Char.toLower)

/-- `IntentRouter.analyzeIntent`. -/
def analyzeIntent (query : String) (preferences : PartialPrefs) : QueryIntent :=
  let prefs := mergePrefs preferences
  let normalizedQuery := normalizeQuery query
  let bm := bestMatchOf normalizedQuery
  let techKeywords := matchedKeywords normalizedQuery
  let confidence :=
    if techKeywords.length > 0 && qlt (mkRat 3 10) bm.2 then
      qmin (mkRat 95 100) (qadd bm.2 (qmul (qnat techKeywords.length) (mkRat 1 10)))
    else bm.2
  let suggestedSearchTerms := generateSearchTerms normalizedQuery techKeywords
  if prefs.mcpFirst && qle prefs.minConfidenceThreshold confidence then
    { shouldUseMCP := true
      confidence := confidence
      intentType := bm.1
      suggestedSearchTerms := suggestedSearchTerms
      reasoning := "High confidence " ++ intentTypeStr bm.1 ++
        " query with curated content likely available" }
  else if prefs.mcpOnlyForBestPractices && bm.1 = .best_practices then
    { shouldUseMCP := true
      confidence := confidence
      intentType := bm.1
      suggestedSearchTerms := suggestedSearchTerms
      reasoning := "Best practices query - prioritizing curated community content" }
  else if techKeywords.length > 0 && qlt (mkRat 4 10) confidence then
    { shouldUseMCP := true
      confidence := confidence
      intentType := bm.1
      suggestedSearchTerms := suggestedSearchTerms
      reasoning := "Technology-specific query (" ++ String.intercalate ", " techKeywords ++
        ") may have curated guidance" }
  else
    { shouldUseMCP := false
      confidence := confidence
      intentType := bm.1
      suggestedSearchTerms := suggestedSearchTerms
      reasoning := "Low confidence for curated content (" ++ jsToFixed2 confidence ++ ")" }

/-- `SearchStep.type`. -/
inductive StepType where
  | mcp_search
  | web_search
deriving DecidableEq, Repr

/-- `SearchStep.priority`. -/
inductive StepPriority where
  | high
  | fallback
  | supplementary
deriving DecidableEq, Repr

/-- Interface `SearchStep`. -/
structure SearchStep where
  type : StepType
  query : String
  priority : StepPriority
  reasoning : String
deriving DecidableEq, Repr

/-- Interface `SearchStrategy`. -/
structure SearchStrategy where
  intent : QueryIntent
  steps : List SearchStep
  explanation : String
deriving DecidableEq, Repr

/-- `IntentRouter.planSearchSteps`. -/
def planSearchSteps (intent : QueryIntent) (prefs : MCPPreferences) : List SearchStep :=
  if intent.shouldUseMCP then
    [{ type := .mcp_search
       query := String.intercalate " " intent.suggestedSearchTerms
       priority := .high
       reasoning := intent.reasoning }] ++
    (if prefs.fallbackToWeb then
        [{ type := .web_search
           query := String.intercalate " " intent.suggestedSearchTerms
           priority := .fallback
           reasoning := "Fallback if MCP search yields insufficient results" }]
      else [])
  else
    [{ type := .web_search
       query := String.intercalate " " intent.suggestedSearchTerms
       priority := .high
       reasoning := "Primary search for general or low-confidence queries" }] ++
    (if qlt (mkRat 3 10) intent.confidence then
        [{ type := .mcp_search
           query := String.intercalate " " intent.suggestedSearchTerms
           priority := .supplementary
           reasoning := "Check for any relevant curated content" }]
      else [])

/-- `IntentRouter.explainStrategy`. -/
def explainStrategy (intent : QueryIntent) : String :=
  if intent.shouldUseMCP then
    "Searching curated content first for " ++ intentTypeStr intent.intentType ++
      " (confidence: " ++ jsToFixed0 (intent.confidence * 100) ++ "%)"
  else "Using web search for general query with MCP as supplement"

/-- `IntentRouter.createSearchStrategy`. -/
def createSearchStrategy (query : String) (preferences : PartialPrefs) : SearchStrategy :=
  let intent := analyzeIntent query preferences
  let prefs := mergePrefs preferences
  { intent := intent
    steps := planSearchSteps intent prefs
    explanation := explainStrategy intent }

/- ### Search orchestrator (`SearchRouter`) -/

/-- Interface `SearchResult`.  The `type` field keeps the backend's raw
string (the TS `as`-cast performs no runtime conversion). -/
structure SearchResult where
  source : EvSource
  title : String
  content : Option String := none
  url : Option String := none
  relevanceScore : ℚ
  type : Option String := none
deriving DecidableEq, Repr

/-- Interface `SearchPathStep`. -/
structure SearchPathStep where
  action : String
  source : EvSource
  query : String
  resultCount : Nat
  duration : ℚ
  success : Bool
deriving DecidableEq, Repr

/-- Interface `RouterSearchResponse`. -/
structure RouterSearchResponse where
  results : List SearchResult
  strategy : SearchStrategy
  searchPath : List SearchPathStep
  recommendations : List String
deriving DecidableEq, Repr

/-- A catalog item as returned by the `MCPServerInterface.search` capability
(only the fields the orchestrator reads). -/
structure MCPItem where
  title : String
  path : String
  rawUrl : String
  type : String
deriving DecidableEq, Repr

/-- A result of the `WebSearchInterface.search` capability. -/
structure WebItem where
  title : String
  url : String
  summary : String
deriving DecidableEq, Repr

/-- The result of `MCPServerInterface.preview`. -/
structure PreviewResult where
  title : String
  content : String
  rawUrl : String
deriving DecidableEq, Repr

/-- The two backend capabilities injected into `SearchRouter`; a rejected
promise is `Except.error` carrying the stringified error. -/
structure RouterCtx where
  mcpSearchFn : String → Except String (List MCPItem)
  mcpPreviewFn : String → Except String PreviewResult
  webSearchFn : String → Nat → Except String (List WebItem)

/-- `SearchRouter.stringMatch`: fraction of query words longer than 2
characters occurring as substrings of `text`. -/
def stringMatch (text query : String) : ℚ :=
  let queryWords := (splitWs query.toList).filter fun w => w.length > 2
  let found := (queryWords.filter fun w => listIsInfix w text.toList).length
  if queryWords.length > 0 then qdiv (qnat found) (qnat queryWords.length) else 0

/-- `SearchRouter.calculateMCPRelevance`. -/
def calculateMCPRelevance (item : MCPItem) (query : String) : ℚ :=
  let queryLower := strToLower query
  let titleScore := stringMatch (strToLower item.title) queryLower
  let pathScore := stringMatch (strToLower item.path) queryLower
  let typeBoost : ℚ :=
    if item.type = "instruction" then mkRat 1 10
    else if item.type = "prompt" then mkRat 5 100
    else 0
  qmin (mkRat 95 100)
    (qadd (qadd (qmul titleScore (mkRat 6 10)) (qmul pathScore (mkRat 4 10))) typeBoost)

/-- `SearchRouter.calculateWebRelevance`. -/
def calculateWebRelevance (item : WebItem) (query : String) : ℚ :=
  let queryLower := strToLower query
  let titleScore := stringMatch (strToLower item.title) queryLower
  let summaryScore := stringMatch (strToLower item.summary) queryLower
  qmin (mkRat 9 10) (qadd (qmul titleScore (mkRat 7 10)) (qmul summaryScore (mkRat 3 10)))

/-- `SearchRouter.truncateContent`. -/
def truncateContent (content : String) (maxLength : Nat) : String :=
  if content.length ≤ maxLength then content
  else ⟨content.toList.take (maxLength - 3)⟩ ++ "..."

/-- The comparator passed to `results.sort` in `SearchRouter.sortResults`
(`this.userPreferences.mcpFirst` is the `mcpFirst` argument here). -/
def sortCmp (mcpFirst : Bool) (a b : SearchResult) : ℚ :=
  if mcpFirst && a.source = EvSource.mcp && b.source = EvSource.web then mkRat (-1) 1
  else if mcpFirst && a.source = EvSource.web && b.source = EvSource.mcp then mkRat 1 1
  else qsub b.relevanceScore a.relevanceScore

/-- `SearchRouter.sortResults`. -/
def sortResults (mcpFirst : Bool) (results : List SearchResult) : List SearchResult :=
  jsStableSort (sortCmp mcpFirst) results

/-- `SearchRouter.generateRecommendations`. -/
def generateRecommendations (results : List SearchResult) (strategy : SearchStrategy) :
    List String :=
  let mcpResults := results.filter fun r => r.source = EvSource.mcp
  let webResults := results.filter fun r => r.source = EvSource.web
  let instructionCount := (mcpResults.filter fun r => r.type = some "instruction").length
  let promptCount := (mcpResults.filter fun r => r.type = some "prompt").length
  (if mcpResults.length > 0 then
      (if instructionCount > 0 then
          ["Found " ++ toString instructionCount ++
            " curated instruction(s) - these contain community-vetted best practices"]
        else []) ++
      (if promptCount > 0 then
          ["Found " ++ toString promptCount ++
            " specialized prompt(s) for your specific use case"]
        else [])
    else []) ++
  (if strategy.intent.intentType = IntentType.best_practices && mcpResults.length = 0 then
      ["No curated best practices found - consider contributing your solution to the community"]
    else []) ++
  (if mcpResults.length > 0 && webResults.length > 0 then
      ["Consider reviewing both curated community practices and latest web resources"]
    else [])

/-- Insertion-ordered deduplication (`[...new Set(xs)]`). -/
def dedupeStrings (xs : List String) : List String := xs.foldl pushIfNew []

/-- Metadata `{ intent, confidence }` attached to the orchestrator's
telemetry calls (further ad-hoc keys the source sometimes adds, such as
`averageRelevance`, fall outside the typed `TelemetryEvent.metadata`
interface and no claim mentions them). -/
def strategyMeta (strategy : SearchStrategy) : Option EvMetadata :=
  some { intent := some (intentTypeStr strategy.intent.intentType)
         confidence := some strategy.intent.confidence }

/-- `SearchRouter.performMCPSearch`.  Returns the converted results
(`none` when the step threw), the updated telemetry state, and the trace
entries the call pushed onto `searchPath`. -/
def performMCPSearch (ctx : RouterCtx) (query : String) (strategy : SearchStrategy)
    (tel : TelemetryState) :
    Option (List SearchResult) × TelemetryState × List SearchPathStep :=
  match ctx.mcpSearchFn query with
  | .error e =>
    let tel := trackMCPResourcesNotFound query 0 (some ("MCP search failed: " ++ e))
      (strategyMeta strategy) tel
    (none, tel, [])
  | .ok mcpResults =>
    let results := (mcpResults.take 5).map fun item =>
      let relevanceScore := calculateMCPRelevance item query
      let base : SearchResult :=
        { source := .mcp
          title := item.title
          url := some item.rawUrl
          relevanceScore := relevanceScore
          type := some item.type }
      if qlt (mkRat 7 10) relevanceScore then
        match ctx.mcpPreviewFn item.path with
        | .ok preview => { base with content := some (truncateContent preview.content 500) }
        | .error _ => base
      else base
    let resourceTypes := (mcpResults.take 5).map (·.type)
    let tel :=
      if results.length > 0 then
        trackMCPResourcesFound query results.length 0 (dedupeStrings resourceTypes)
          (strategyMeta strategy) tel
      else
        trackMCPResourcesNotFound query 0
          (some "No matching curated content found in repository") (strategyMeta strategy) tel
    (some results, tel,
      [{ action := "MCP search completed"
         source := .mcp
         query := query
         resultCount := results.length
         duration := 0
         success := true }])

/-- `SearchRouter.performWebSearch`: the converted results and the trace
entry, or `none` when the backend rejected. -/
def performWebSearch (ctx : RouterCtx) (query : String) :
    Option (List SearchResult × SearchPathStep) :=
  match ctx.webSearchFn query 5 with
  | .error _ => none
  | .ok webResults =>
    let results := webResults.map fun item =>
      ({ source := .web
         title := item.title
         content := some item.summary
         url := some item.url
         relevanceScore := calculateWebRelevance item query
         type := some "web_result" } : SearchResult)
    some (results,
      { action := "Web search completed"
        source := .web
        query := query
        resultCount := results.length
        duration := 0
        success := true })

/-- The accumulator of the step loop in `SearchRouter.search`. -/
structure LoopState where
  results : List SearchResult
  searchPath : List SearchPathStep
  sourcesUsed : List String
  tel : TelemetryState

/-- The failure trace entry pushed by the `catch` block of the step loop. -/
def failEntry (stepType : StepType) (query : String) : SearchPathStep :=
  { action := "Failed " ++ (match stepType with
      | .mcp_search => "mcp_search"
      | .web_search => "web_search")
    source := match stepType with
      | .mcp_search => .mcp
      | .web_search => .web
    query := query
    resultCount := 0
    duration := 0
    success := false }

/-- The skip trace entry for a sufficient-results fallback skip. -/
def skipEntry (query : String) : SearchPathStep :=
  { action := "Skipped web fallback - sufficient MCP results found"
    source := .web
    query := query
    resultCount := 0
    duration := 0
    success := true }

/-- The `for (const step of strategy.steps)` loop of `SearchRouter.search`,
including its two `break`s and its per-step `catch`. -/
def searchLoop (ctx : RouterCtx) (prefs : MCPPreferences) (query : String)
    (strategy : SearchStrategy) : List SearchStep → LoopState → LoopState
  | [], st => st
  | step :: rest, st =>
    match step.type with
    | .mcp_search =>
      let st := { st with sourcesUsed := st.sourcesUsed ++ ["mcp"] }
      match performMCPSearch ctx step.query strategy st.tel with
      | (none, tel, entries) =>
        searchLoop ctx prefs query strategy rest
          { st with
              tel := tel
              searchPath := st.searchPath ++ entries ++ [failEntry step.type step.query] }
      | (some res, tel, entries) =>
        let st := { st with
                      results := st.results ++ res
                      tel := tel
                      searchPath := st.searchPath ++ entries }
        if step.priority = StepPriority.high && res.length > 0 && !prefs.fallbackToWeb then
          st
        else if step.priority = StepPriority.fallback && st.results.length ≥ 3 then
          { st with searchPath := st.searchPath ++ [skipEntry step.query] }
        else searchLoop ctx prefs query strategy rest st
    | .web_search =>
      let st := { st with sourcesUsed := st.sourcesUsed ++ ["web"] }
      match performWebSearch ctx step.query with
      | none =>
        searchLoop ctx prefs query strategy rest
          { st with searchPath := st.searchPath ++ [failEntry step.type step.query] }
      | some (res, entry) =>
        let st := { st with
                      results := st.results ++ res
                      searchPath := st.searchPath ++ [entry] }
        let mcpResultCount := (st.results.filter fun r => r.source = EvSource.mcp).length
        let tel := trackFallbackToWeb query mcpResultCount 0
          (if step.priority = StepPriority.fallback then "Insufficient MCP results"
            else "Primary web search")
          (strategyMeta strategy) st.tel
        searchLoop ctx prefs query strategy rest { st with tel := tel }

/-- `SearchRouter.search`, returning the response and the resulting
telemetry state. -/
def search (ctx : RouterCtx) (prefs : MCPPreferences) (query : String)
    (tel : TelemetryState) : RouterSearchResponse × TelemetryState :=
  let strategy := createSearchStrategy query prefs.toPartial
  let tel := trackMCPConsultation query 0 (strategyMeta strategy) tel
  let st := searchLoop ctx prefs query strategy strategy.steps
    { results := [], searchPath := [], sourcesUsed := [], tel := tel }
  let sortedResults := sortResults prefs.mcpFirst st.results
  let recommendations := generateRecommendations sortedResults strategy
  let tel := trackSearchCompleted query sortedResults.length 0 st.sourcesUsed
    (strategyMeta strategy) st.tel
  ({ results := sortedResults
     strategy := strategy
     searchPath := st.searchPath
     recommendations := recommendations }, tel)

/- ### Specification-side definitions (used to state refinement claims) -/

/-- From the spec: the candidate confidence of an intent category,
`min(0.9, 0.3 + 0.2·matches)`. -/
def specCategoryConfidence (s : List Char) (pats : List Reg) : ℚ :=
  min (9 / 10 : ℚ) (3 / 10 + (countMatches pats s : ℚ) * (2 / 10))

/-- From the spec: the categories with at least one matching pattern. -/
def specMatchedCats (s : List Char) : List (IntentType × List Reg) :=
  intentPatterns.filter fun c => 0 < countMatches c.2 s

/-- From the spec: the best (maximal) category confidence, defaulting to 0
when no pattern matches. -/
def specBaseConfidence (s : List Char) : ℚ :=
  ((specMatchedCats s).map fun c => specCategoryConfidence s c.2).foldl max 0

/-- The candidate confidence a category contributes in `analyzeIntent`
(`none` when none of its patterns match the normalized query). -/
def candVal (s : List Char) (c : IntentType × List Reg) : Option ℚ :=
  if 0 < countMatches c.2 s then
    some (qmin (mkRat 9 10)
      (qadd (mkRat 3 10) (qmul (qnat (countMatches c.2 s)) (mkRat 2 10))))
  else none

/-- From the spec: the winning category — the first category in enumeration
order achieving the best confidence, or the catch-all when nothing
matched. -/
def specIntentType (s : List Char) : IntentType :=
  match (specMatchedCats s).find?
      (fun c => specCategoryConfidence s c.2 = specBaseConfidence s) with
  | some c => c.1
  | none => .general_question

/-- From the spec: the final confidence — the best category confidence,
boosted by `0.1` per matched technology keyword (capped at 0.95) when some
keyword matched and the base confidence exceeds 0.3. -/
def specConfidence (query : String) : ℚ :=
  let s := normalizeQuery query
  let base := specBaseConfidence s
  let k := (matchedKeywords s).length
  if 0 < k ∧ 3 / 10 < base then min (95 / 100 : ℚ) (base + (k : ℚ) * (1 / 10)) else base

/- ### Concrete sample data for witnesses and counterexamples -/

/-- A bare `mcp_consulted` event. -/
def consultEv (q : String) : TelemetryEvent :=
  { timestamp := ""
    eventType := .mcp_consulted
    query := q
    source := .mcp
    resultCount := 0
    success := true
    duration := 0 }

/-- A fresh telemetry state. -/
def telInit : TelemetryState := {}

/-- A disabled telemetry state holding one event. -/
def telDisabled : TelemetryState := { events := [consultEv "q"], enabled := false }

/-- A sample `trackEvent` input. -/
def sampleInput : EventInput :=
  { eventType := .search_completed
    query := "q"
    source := .web
    resultCount := 2
    success := true
    duration := 5 }

/-- A context whose backends both reject every call. -/
def ctxFail : RouterCtx :=
  { mcpSearchFn := fun _ => .error "catalog down"
    mcpPreviewFn := fun _ => .error "catalog down"
    webSearchFn := fun _ _ => .error "web down" }

/-- A context whose catalog backend returns three items and whose web
backend returns one result. -/
def ctxThree : RouterCtx :=
  { mcpSearchFn := fun _ => .ok
      [ { title := "A", path := "instructions/a.instructions.md", rawUrl := "u1"
          type := "instruction" }
      , { title := "B", path := "prompts/b.prompt.md", rawUrl := "u2", type := "prompt" }
      , { title := "C", path := "chatmodes/c.chatmode.md", rawUrl := "u3"
          type := "chatmode" } ]
    mcpPreviewFn := fun _ => .error "no preview"
    webSearchFn := fun _ _ => .ok [{ title := "W", url := "http://w", summary := "s" }] }

/-- The scenario query of the specification. -/
def springQuery : String := "Spring Boot best practices for microservices"

/-- A short query routed to the curated backend
(`best_practices` via `clean code`, boosted by the `python` keyword). -/
def cleanQuery : String := "clean code python"

/- ### Bridge lemmas: the kernel-evaluable `ℚ` operations agree with the
mathematical ones -/

theorem qadd_eq (a b : ℚ) : qadd a b = a + b := (Rat.add_def' a b).symm

theorem qsub_eq (a b : ℚ) : qsub a b = a - b := (Rat.sub_def' a b).symm

theorem qmul_eq (a b : ℚ) : qmul a b = a * b := by
  rw [qmul, ← Rat.normalize_eq_mkRat (Nat.mul_ne_zero a.den_nz b.den_nz), ← Rat.mul_def]

theorem qdiv_eq (a b : ℚ) : qdiv a b = a / b := (Rat.div_def' a b).symm

theorem qlt_iff (a b : ℚ) : qlt a b = true ↔ a < b := Iff.rfl

theorem qle_iff (a b : ℚ) : qle a b = true ↔ a ≤ b := by
  rw [qle, Bool.not_eq_true']
  constructor
  · intro hf
    by_contra hab
    have hba : Rat.blt b a = true := (qlt_iff b a).mpr (lt_of_not_le hab)
    rw [hba] at hf
    exact Bool.noConfusion hf
  · intro hab
    cases hbl : Rat.blt b a with
    | false => rfl
    | true => exact absurd ((qlt_iff b a).mp hbl) (not_lt.mpr hab)

theorem qmin_eq (a b : ℚ) : qmin a b = min a b := by
  rw [qmin, min_def]
  by_cases h : b < a
  · rw [if_pos ((qlt_iff b a).mpr h), if_neg (not_le.mpr h)]
  · rw [if_neg (fun hc => h ((qlt_iff b a).mp hc)), if_pos (not_lt.mp h)]

theorem qnat_eq (n : ℕ) : qnat n = (n : ℚ) := by
  rw [qnat, Rat.mkRat_eq_div]; norm_num

theorem qint_eq (i : ℤ) : qint i = (i : ℚ) := by
  rw [qint, Rat.mkRat_eq_div]; norm_num

theorem qfloor_eq (q : ℚ) : qfloor q = ⌊q⌋ := Rat.floor_def.symm

/- ### Telemetry lemmas -/

theorem trackEvent_length_le (s : TelemetryState) (h : s.events.length ≤ 1000)
    (e : EventInput) : (trackEvent e s).events.length ≤ 1000 := by
  rw [trackEvent]
  cases hen : s.enabled with
  | false => simpa using h
  | true =>
    simp only [hen, Bool.not_true, Bool.false_eq_true, if_false]
    split
    · simp only [List.length_drop]
      omega
    · simp only [List.length_append, List.length_singleton] at *
      omega

theorem trackEvent_suffix (s : TelemetryState) (e : EventInput) :
    (trackEvent e s).events <:+
      s.events ++ (if s.enabled then [mkTimestamped e] else []) := by
  rw [trackEvent]
  cases hen : s.enabled with
  | false => simp
  | true =>
    simp only [hen, Bool.not_true, Bool.false_eq_true, if_false, if_true]
    split
    · exact (s.events ++ [mkTimestamped e]).drop_suffix _
    · exact List.suffix_refl _

/-- C3: after every `trackEvent` call on a state whose log respects the
1000-event cap, the log still holds at most 1000 events and is a suffix of
the old log extended by the (timestamped) new event — so only the oldest
events are evicted and the surviving events keep their FIFO order — and
the cap is preserved by any sequence of `trackEvent` calls. -/
theorem trackEvent_cap_and_fifo (s : TelemetryState) (h : s.events.length ≤ 1000) :
    (∀ e : EventInput,
      (trackEvent e s).events.length ≤ 1000 ∧
        (trackEvent e s).events <:+
          s.events ++ (if s.enabled then [mkTimestamped e] else [])) ∧
    (∀ es : List EventInput, (applyEvents es s).events.length ≤ 1000) := by
  constructor
  · exact fun e => ⟨trackEvent_length_le s h e, trackEvent_suffix s e⟩
  · intro es
    induction es generalizing s with
    | nil => exact h
    | cons e es ih => exact ih (trackEvent e s) (trackEvent_length_le s h e)

/-- Witness for C3 at a concrete state and event. -/
theorem trackEvent_cap_and_fifo_witness :
    (trackEvent sampleInput telInit).events.length ≤ 1000 :=
  ((trackEvent_cap_and_fifo telInit (by decide)).1 sampleInput).1

/-- C9: on a disabled telemetry state, `trackEvent` and every convenience
tracker leave the state (in particular the event log) exactly unchanged. -/
theorem disabled_trackers_noop (s : TelemetryState) (h : s.enabled = false) :
    (∀ e, trackEvent e s = s) ∧
    (∀ q d md, trackMCPConsultation q d md s = s) ∧
    (∀ q n d ts md, trackMCPResourcesFound q n d ts md s = s) ∧
    (∀ q d r md, trackMCPResourcesNotFound q d r md s = s) ∧
    (∀ q n d r md, trackFallbackToWeb q n d r md s = s) ∧
    (∀ q n d srcs md, trackSearchCompleted q n d srcs md s = s) := by
  have hbase : ∀ e, trackEvent e s = s := by
    intro e
    simp [trackEvent, h]
  exact ⟨hbase, fun _ _ _ => hbase _, fun _ _ _ _ _ => hbase _, fun _ _ _ _ => hbase _,
    fun _ _ _ _ _ => hbase _, fun _ _ _ _ _ => hbase _⟩

/-- Witness for C9 at a concrete disabled state. -/
theorem disabled_trackers_noop_witness :
    trackEvent sampleInput telDisabled = telDisabled :=
  (disabled_trackers_noop telDisabled (by decide)).1 sampleInput

/-- C8 counterexample: at `limit = 0` on a one-event log,
`getRecentEvents` returns the whole log (`slice(-0)` is `slice(0)`),
not the last 0 events. -/
theorem getRecentEvents_zero_cex :
    getRecentEvents [consultEv "q"] 0 ≠ lastN [consultEv "q"] 0 := by decide

/-- C8 (amended): for every strictly positive `limit`, `getRecentEvents`
returns exactly the last `limit` events of the log (all of them when the
log is shorter), in chronological order. -/
theorem getRecentEvents_pos (events : List TelemetryEvent) (limit : Nat) (h : 0 < limit) :
    getRecentEvents events limit = lastN events limit := by
  rw [getRecentEvents, lastN, if_neg (Nat.pos_iff_ne_zero.mp h)]

/-- Witness for the amended C8. -/
theorem getRecentEvents_pos_witness :
    getRecentEvents [consultEv "q"] 1 = lastN [consultEv "q"] 1 :=
  getRecentEvents_pos [consultEv "q"] 1 (by decide)

/- ### C7: the overall-success-ratio suggestion rules -/

theorem gen_suggestions_ratio (stats : TelemetryStats)
    (h : 10 < stats.totalConsultations) :
    (((stats.successfulMCPConsultations : ℚ) / (stats.totalConsultations : ℚ) < 3 / 10 →
        "Low overall success rate - repository may need broader content coverage" ∈
          generateImprovementSuggestions stats)) ∧
    ((8 : ℚ) / 10 <
        (stats.successfulMCPConsultations : ℚ) / (stats.totalConsultations : ℚ) →
      "High MCP success rate - users are finding valuable curated content" ∈
        generateImprovementSuggestions stats) := by
  have hrate : qdiv (qnat stats.successfulMCPConsultations) (qnat stats.totalConsultations) =
      (stats.successfulMCPConsultations : ℚ) / (stats.totalConsultations : ℚ) := by
    rw [qdiv_eq, qnat_eq, qnat_eq]
  constructor
  · intro hr
    have hq : qlt (qdiv (qnat stats.successfulMCPConsultations)
        (qnat stats.totalConsultations)) (mkRat 3 10) = true := by
      rw [qlt_iff, hrate, Rat.mkRat_eq_div]
      push_cast
      linarith
    have h5 : "Low overall success rate - repository may need broader content coverage" ∈
        suggestionRuleRatio stats := by
      rw [suggestionRuleRatio, if_pos h, if_pos hq]
      exact List.mem_singleton_self _
    rw [generateImprovementSuggestions]
    exact List.mem_append_right _ h5
  · intro hr
    have hq : ¬ qlt (qdiv (qnat stats.successfulMCPConsultations)
        (qnat stats.totalConsultations)) (mkRat 3 10) = true := by
      rw [qlt_iff, hrate, Rat.mkRat_eq_div]
      push_cast
      intro hc
      linarith
    have hq' : qlt (mkRat 8 10) (qdiv (qnat stats.successfulMCPConsultations)
        (qnat stats.totalConsultations)) = true := by
      rw [qlt_iff, hrate, Rat.mkRat_eq_div]
      push_cast
      linarith
    have h5 : "High MCP success rate - users are finding valuable curated content" ∈
        suggestionRuleRatio stats := by
      rw [suggestionRuleRatio, if_pos h, if_neg hq, if_pos hq']
      exact List.mem_singleton_self _
    rw [generateImprovementSuggestions]
    exact List.mem_append_right _ h5

theorem getStats_suggestions_eq (events : List TelemetryEvent) (h : events.length ≠ 0) :
    (getStats events).improvementSuggestions =
      generateImprovementSuggestions
        { getStats events with improvementSuggestions := [] } := by
  rw [getStats, if_neg h]

theorem getStats_nonempty_of_consultations (events : List TelemetryEvent)
    (h : 0 < (getStats events).totalConsultations) : events.length ≠ 0 := by
  intro h0
  rw [getStats, if_pos h0] at h
  exact absurd h (by decide)

/-- C7 (amended): whenever `getStats` reports more than 10 consultations,
a success ratio below 0.3 puts the broader-coverage suggestion in
`improvementSuggestions`, and a ratio above 0.8 puts the high-relevance
note there — each independently of the other heuristic rules. -/
theorem getStats_ratio_rules (events : List TelemetryEvent)
    (h : 10 < (getStats events).totalConsultations) :
    (((getStats events).successfulMCPConsultations : ℚ) /
          ((getStats events).totalConsultations : ℚ) < 3 / 10 →
      "Low overall success rate - repository may need broader content coverage" ∈
        (getStats events).improvementSuggestions) ∧
    ((8 : ℚ) / 10 < ((getStats events).successfulMCPConsultations : ℚ) /
          ((getStats events).totalConsultations : ℚ) →
      "High MCP success rate - users are finding valuable curated content" ∈
        (getStats events).improvementSuggestions) := by
  have hne : events.length ≠ 0 :=
    getStats_nonempty_of_consultations events (Nat.lt_of_le_of_lt (Nat.zero_le 10) h)
  rw [getStats_suggestions_eq events hne]
  exact gen_suggestions_ratio _ h

/-- Witness for the amended C7: eleven consultations, none successful. -/
theorem getStats_ratio_rules_witness :
    "Low overall success rate - repository may need broader content coverage" ∈
      (getStats (List.replicate 11 (consultEv "q"))).improvementSuggestions := by
  have h10 : 10 < (getStats (List.replicate 11 (consultEv "q"))).totalConsultations := by
    decide
  apply (getStats_ratio_rules (List.replicate 11 (consultEv "q")) h10).1
  have h1 : (getStats (List.replicate 11 (consultEv "q"))).successfulMCPConsultations = 0 := by
    decide
  have h2 : (getStats (List.replicate 11 (consultEv "q"))).totalConsultations = 11 := by
    decide
  rw [h1, h2]
  norm_num

/-- C7 counterexample: with exactly one consultation (ratio 0 < 0.3) the
broader-coverage suggestion is **not** produced — the rule is gated on
`totalConsultations > 10`, not `> 0` as the claim states. -/
theorem getStats_ratio_rule_cex :
    0 < (getStats [consultEv "q"]).totalConsultations ∧
    ((getStats [consultEv "q"]).successfulMCPConsultations : ℚ) /
        ((getStats [consultEv "q"]).totalConsultations : ℚ) < 3 / 10 ∧
    "Low overall success rate - repository may need broader content coverage" ∉
      (getStats [consultEv "q"]).improvementSuggestions := by
  refine ⟨by decide, ?_, by decide⟩
  have h1 : (getStats [consultEv "q"]).successfulMCPConsultations = 0 := by decide
  have h2 : (getStats [consultEv "q"]).totalConsultations = 1 := by decide
  rw [h1, h2]
  norm_num

/- ### C2: result ordering under `mcpFirst` -/

theorem sortCmpT_le_char (a b : SearchResult) :
    sortCmp true a b ≤ 0 ↔
      (a.source = EvSource.mcp ∧ b.source = EvSource.web) ∨
        (a.source = b.source ∧ b.relevanceScore ≤ a.relevanceScore) := by
  have hm1 : (mkRat (-1) 1 : ℚ) = -1 := by rw [Rat.mkRat_eq_div]; norm_num
  have hp1 : (mkRat 1 1 : ℚ) = 1 := by rw [Rat.mkRat_eq_div]; norm_num
  rw [sortCmp]
  cases ha : a.source <;> cases hb : b.source <;>
    simp [ha, hb, hm1, hp1, qsub_eq, sub_nonpos]

theorem sortCmpT_total (a b : SearchResult) :
    sortCmp true a b ≤ 0 ∨ sortCmp true b a ≤ 0 := by
  rw [sortCmpT_le_char, sortCmpT_le_char]
  cases ha : a.source <;> cases hb : b.source <;> simp [ha, hb] <;>
    exact le_total b.relevanceScore a.relevanceScore

theorem sortCmpT_trans (a b c : SearchResult) (hab : sortCmp true a b ≤ 0)
    (hbc : sortCmp true b c ≤ 0) : sortCmp true a c ≤ 0 := by
  rw [sortCmpT_le_char] at *
  rcases hab with ⟨ha, hb⟩ | ⟨hab, hsab⟩ <;> rcases hbc with ⟨hb', hc⟩ | ⟨hbc, hsbc⟩
  · rw [hb] at hb'
    exact absurd hb' (by simp)
  · exact Or.inl ⟨ha, hbc ▸ hb⟩
  · exact Or.inl ⟨hab ▸ hb', hc⟩
  · exact Or.inr ⟨hab.trans hbc, hsbc.trans hsab⟩

theorem jsSort_sorted_mcpFirst (l : List SearchResult) :
    (jsStableSort (sortCmp true) l).Sorted fun a b => sortCmp true a b ≤ 0 := by
  haveI : IsTotal SearchResult (fun a b => sortCmp true a b ≤ 0) := ⟨sortCmpT_total⟩
  haveI : IsTrans SearchResult (fun a b => sortCmp true a b ≤ 0) := ⟨sortCmpT_trans⟩
  exact List.sorted_insertionSort _ l

theorem filter_insertionSort_of_class {α : Type} (r : α → α → Prop) [DecidableRel r]
    (p : α → Bool) (hcl : ∀ a b, p a = true → p b = true → r a b) (l : List α) :
    (l.insertionSort r).filter p = l.filter p := by
  induction l with
  | nil => rfl
  | cons a l ih =>
    have hsplit :
        ((l.insertionSort r).takeWhile fun b => (decide (¬ r a b) : Bool)) ++
          ((l.insertionSort r).dropWhile fun b => (decide (¬ r a b) : Bool)) =
          l.insertionSort r :=
      List.takeWhile_append_dropWhile _ _
    rw [List.insertionSort, List.orderedInsert_eq_take_drop, List.filter_append]
    by_cases hpa : p a = true
    · have htake :
          ((l.insertionSort r).takeWhile fun b => (decide (¬ r a b) : Bool)).filter p =
            [] := by
        rw [List.filter_eq_nil_iff]
        intro b hb hpb
        have hnr := List.mem_takeWhile_imp hb
        simp only [decide_eq_true_eq] at hnr
        exact hnr (hcl a b hpa hpb)
      have hdrop :
          ((l.insertionSort r).dropWhile fun b => (decide (¬ r a b) : Bool)).filter p =
            l.filter p := by
        have hc := congrArg (List.filter p) hsplit
        rw [List.filter_append, htake, List.nil_append, ih] at hc
        exact hc
      rw [htake, List.filter_cons_of_pos hpa, hdrop, List.nil_append,
        List.filter_cons_of_pos hpa]
    · rw [List.filter_cons_of_neg hpa, ← List.filter_append, hsplit, ih,
        List.filter_cons_of_neg hpa]

/-- C2: with `mcpFirst = true`, `sortResults` returns a permutation of its
input in which no web-sourced result precedes a catalog-sourced one,
results of equal source appear in non-increasing relevance-score order,
and results tied on both source and score keep their original relative
order (stability). -/
theorem sortResults_mcpFirst (l : List SearchResult) :
    (sortResults true l).Perm l ∧
    List.Pairwise (fun a b => ¬(a.source = EvSource.web ∧ b.source = EvSource.mcp))
      (sortResults true l) ∧
    List.Pairwise (fun a b => a.source = b.source → b.relevanceScore ≤ a.relevanceScore)
      (sortResults true l) ∧
    (∀ (src : EvSource) (score : ℚ),
      (sortResults true l).filter
          (fun r => decide (r.source = src) && decide (r.relevanceScore = score)) =
        l.filter (fun r => decide (r.source = src) && decide (r.relevanceScore = score))) := by
  have hs := jsSort_sorted_mcpFirst l
  refine ⟨List.perm_insertionSort _ l, hs.imp ?_, hs.imp ?_, ?_⟩
  · intro a b hab
    rintro ⟨hw, hm⟩
    rcases (sortCmpT_le_char a b).mp hab with ⟨ha, _⟩ | ⟨hsame, _⟩
    · rw [ha] at hw
      exact absurd hw (by simp)
    · rw [hw, hm] at hsame
      exact absurd hsame (by simp)
  · intro a b hab hsame
    rcases (sortCmpT_le_char a b).mp hab with ⟨ha, hb⟩ | ⟨_, hle⟩
    · rw [ha, hb] at hsame
      exact absurd hsame (by simp)
    · exact hle
  · intro src score
    apply filter_insertionSort_of_class
    intro a b hpa hpb
    simp only [Bool.and_eq_true, decide_eq_true_eq] at hpa hpb
    rw [sortCmpT_le_char]
    exact Or.inr ⟨hpa.1.trans hpb.1.symm, (hpb.2.trans hpa.2.symm).le⟩

/- ### C4: the confidence formula of `analyzeIntent` -/

theorem le_foldl_max (l : List ℚ) (a : ℚ) : a ≤ l.foldl max a := by
  induction l generalizing a with
  | nil => exact le_refl a
  | cons x l ih => exact le_trans (le_max_left a x) (ih (max a x))

theorem foldl_max_le (l : List ℚ) (a B : ℚ) (hl : ∀ x ∈ l, x ≤ B) (ha : a ≤ B) :
    l.foldl max a ≤ B := by
  induction l generalizing a with
  | nil => exact ha
  | cons x l ih =>
    exact ih (max a x) (fun y hy => hl y (List.mem_cons_of_mem x hy))
      (max_le ha (hl x (List.mem_cons_self x l)))

theorem mem_le_foldl_max (l : List ℚ) (a x : ℚ) (hx : x ∈ l) : x ≤ l.foldl max a := by
  induction l generalizing a with
  | nil => exact absurd hx (List.not_mem_nil x)
  | cons y l ih =>
    rcases List.mem_cons.mp hx with rfl | hx'
    · exact le_trans (le_max_right a x) (le_foldl_max l (max a x))
    · exact ih (max a y) hx'

theorem bestStep_none (s : List Char) (b : IntentType × ℚ) (c : IntentType × List Reg)
    (hc : candVal s c = none) : bestStep s b c = b := by
  rw [bestStep]
  by_cases h : 0 < countMatches c.2 s
  · rw [candVal, if_pos h] at hc
    exact absurd hc (by simp)
  · rw [if_neg h]

theorem bestStep_some (s : List Char) (b : IntentType × ℚ) (c : IntentType × List Reg)
    (v : ℚ) (hc : candVal s c = some v) :
    bestStep s b c = if qlt b.2 v then (c.1, v) else b := by
  by_cases h : 0 < countMatches c.2 s
  · rw [candVal, if_pos h] at hc
    have hv := Option.some.inj hc
    rw [bestStep, if_pos h, hv]
  · rw [candVal, if_neg h] at hc
    exact absurd hc (by simp)

theorem foldl_bestStep_conf (s : List Char) (cs : List (IntentType × List Reg))
    (b : IntentType × ℚ) :
    (cs.foldl (bestStep s) b).2 = (cs.filterMap (candVal s)).foldl max b.2 := by
  induction cs generalizing b with
  | nil => rfl
  | cons c cs ih =>
    rw [List.foldl_cons, List.filterMap_cons, ih]
    cases hc : candVal s c with
    | none => rw [bestStep_none s b c hc]
    | some v =>
      rw [bestStep_some s b c v hc]
      have h2 : (if qlt b.2 v then (c.1, v) else b).2 = max b.2 v := by
        by_cases hbv : b.2 < v
        · rw [if_pos ((qlt_iff b.2 v).mpr hbv), max_eq_right hbv.le]
        · rw [if_neg (fun hq => hbv ((qlt_iff b.2 v).mp hq)),
            max_eq_left (le_of_not_lt hbv)]
      rw [List.foldl_cons, h2]

theorem foldl_bestStep_find (s : List Char) (cs : List (IntentType × List Reg))
    (b : IntentType × ℚ) :
    (b.2 < (cs.filterMap (candVal s)).foldl max b.2 →
      ∃ c, cs.find?
          (fun c => candVal s c = some ((cs.filterMap (candVal s)).foldl max b.2)) =
          some c ∧
        cs.foldl (bestStep s) b = (c.1, (cs.filterMap (candVal s)).foldl max b.2)) ∧
    (¬ b.2 < (cs.filterMap (candVal s)).foldl max b.2 →
      cs.foldl (bestStep s) b = b) := by
  induction cs generalizing b with
  | nil => exact ⟨fun h => absurd h (lt_irrefl _), fun _ => rfl⟩
  | cons c cs ih =>
    cases hc : candVal s c with
    | none =>
      have hstep : bestStep s b c = b := bestStep_none s b c hc
      simp only [List.filterMap_cons, hc, List.foldl_cons, hstep]
      constructor
      · intro hlt
        obtain ⟨c', hf, hfold⟩ := (ih b).1 hlt
        refine ⟨c', ?_, hfold⟩
        rw [List.find?_cons_of_neg, hf]
        simp [hc]
      · exact fun hnlt => (ih b).2 hnlt
    | some v =>
      by_cases hbv : b.2 < v
      · have hstep : bestStep s b c = (c.1, v) := by
          rw [bestStep_some s b c v hc, if_pos ((qlt_iff b.2 v).mpr hbv)]
        have hmax : max b.2 v = v := max_eq_right hbv.le
        simp only [List.filterMap_cons, hc, List.foldl_cons, hstep, hmax]
        by_cases hvM : v < (cs.filterMap (candVal s)).foldl max v
        · constructor
          · intro _
            obtain ⟨c', hf, hfold⟩ := (ih (c.1, v)).1 hvM
            refine ⟨c', ?_, hfold⟩
            rw [List.find?_cons_of_neg, hf]
            simp only [hc, Option.some.injEq, decide_eq_true_eq]
            exact ne_of_lt hvM
          · intro hnlt
            exact absurd (lt_of_lt_of_le hbv (le_foldl_max _ v)) hnlt
        · have hM : (cs.filterMap (candVal s)).foldl max v = v :=
            le_antisymm (not_lt.mp hvM) (le_foldl_max _ v)
          constructor
          · intro _
            refine ⟨c, ?_, ?_⟩
            · rw [List.find?_cons_of_pos]
              simp [hc, hM]
            · rw [(ih (c.1, v)).2 (by rw [hM]; exact lt_irrefl v), hM]
          · intro hnlt
            exact absurd (lt_of_lt_of_le hbv (le_foldl_max _ v)) hnlt
      · have hstep : bestStep s b c = b := by
          rw [bestStep_some s b c v hc, if_neg (fun hq => hbv ((qlt_iff b.2 v).mp hq))]
        have hmax : max b.2 v = b.2 := max_eq_left (not_lt.mp hbv)
        simp only [List.filterMap_cons, hc, List.foldl_cons, hstep, hmax]
        constructor
        · intro hlt
          obtain ⟨c', hf, hfold⟩ := (ih b).1 hlt
          refine ⟨c', ?_, hfold⟩
          rw [List.find?_cons_of_neg, hf]
          simp only [hc, Option.some.injEq, decide_eq_true_eq]
          exact ne_of_lt (lt_of_le_of_lt (not_lt.mp hbv) hlt)
        · exact fun hnlt => (ih b).2 hnlt

theorem qconf_eq_spec (s : List Char) (pats : List Reg) :
    qmin (mkRat 9 10) (qadd (mkRat 3 10) (qmul (qnat (countMatches pats s)) (mkRat 2 10))) =
      specCategoryConfidence s pats := by
  have h9 : (mkRat 9 10 : ℚ) = 9 / 10 := by rw [Rat.mkRat_eq_div]; norm_num
  have h3 : (mkRat 3 10 : ℚ) = 3 / 10 := by rw [Rat.mkRat_eq_div]; norm_num
  have h2 : (mkRat 2 10 : ℚ) = 2 / 10 := by rw [Rat.mkRat_eq_div]; norm_num
  rw [specCategoryConfidence, qmin_eq, qadd_eq, qmul_eq, qnat_eq, h9, h3, h2]

theorem filterMap_candVal (s : List Char) (cs : List (IntentType × List Reg)) :
    cs.filterMap (candVal s) =
      (cs.filter fun c => 0 < countMatches c.2 s).map
        fun c => specCategoryConfidence s c.2 := by
  induction cs with
  | nil => rfl
  | cons c cs ih =>
    by_cases h : 0 < countMatches c.2 s
    · have hc : candVal s c = some (qmin (mkRat 9 10)
          (qadd (mkRat 3 10) (qmul (qnat (countMatches c.2 s)) (mkRat 2 10)))) := by
        rw [candVal, if_pos h]
      rw [List.filterMap_cons_some hc, ih]
      simp [List.filter_cons, h, qconf_eq_spec]
    · have hc : candVal s c = none := by rw [candVal, if_neg h]
      rw [List.filterMap_cons_none hc, ih]
      simp [List.filter_cons, h]

theorem bestMatchOf_conf_spec (s : List Char) :
    (bestMatchOf s).2 = specBaseConfidence s := by
  rw [bestMatchOf, foldl_bestStep_conf, filterMap_candVal, specBaseConfidence,
    specMatchedCats]

theorem find?_filter_comm {α : Type} (l : List α) (p q : α → Bool) :
    (l.filter p).find? q = l.find? fun a => p a && q a := by
  induction l with
  | nil => rfl
  | cons a l ih =>
    by_cases hp : p a = true
    · rw [List.filter_cons_of_pos hp]
      by_cases hq : q a = true
      · rw [List.find?_cons_of_pos _ hq, List.find?_cons_of_pos _ (by simp [hp, hq])]
      · rw [List.find?_cons_of_neg _ (by simpa using hq), ih,
          List.find?_cons_of_neg _ (by simp [hq])]
    · rw [List.filter_cons_of_neg hp, ih, List.find?_cons_of_neg _ (by simp [hp])]

theorem specCC_ge_half (s : List Char) (pats : List Reg) (h : 0 < countMatches pats s) :
    1 / 2 ≤ specCategoryConfidence s pats := by
  rw [specCategoryConfidence]
  apply le_min
  · norm_num
  · have hm : (1 : ℚ) ≤ (countMatches pats s : ℚ) := by
      exact_mod_cast Nat.one_le_iff_ne_zero.mpr (Nat.pos_iff_ne_zero.mp h)
    linarith

theorem specBase_pos_of_matched (s : List Char) (c : IntentType × List Reg)
    (hc : c ∈ specMatchedCats s) : 1 / 2 ≤ specBaseConfidence s := by
  have hmem : specCategoryConfidence s c.2 ∈
      (specMatchedCats s).map fun c => specCategoryConfidence s c.2 :=
    List.mem_map_of_mem _ hc
  have hle := mem_le_foldl_max _ 0 _ hmem
  have hhalf : 1 / 2 ≤ specCategoryConfidence s c.2 := by
    apply specCC_ge_half
    have := List.mem_filter.mp hc
    simpa using this.2
  rw [specBaseConfidence]
  exact le_trans hhalf hle

theorem bestMatchOf_type_spec (s : List Char) :
    (bestMatchOf s).1 = specIntentType s := by
  have hM : (intentPatterns.filterMap (candVal s)).foldl max (0 : ℚ) =
      specBaseConfidence s := by
    rw [filterMap_candVal, specBaseConfidence, specMatchedCats]
  have hpred : (fun c => decide (candVal s c =
      some ((intentPatterns.filterMap (candVal s)).foldl max
        ((IntentType.general_question, (0 : ℚ))).2))) =
      (fun c => decide (0 < countMatches c.2 s) &&
        decide (specCategoryConfidence s c.2 = specBaseConfidence s)) := by
    funext c
    by_cases h : 0 < countMatches c.2 s
    · have hc : candVal s c = some (qmin (mkRat 9 10)
          (qadd (mkRat 3 10) (qmul (qnat (countMatches c.2 s)) (mkRat 2 10)))) := by
        rw [candVal, if_pos h]
      simp only [hc, decide_eq_true h, Bool.true_and, Option.some.injEq, qconf_eq_spec]
      rw [hM]
    · have hc : candVal s c = none := by rw [candVal, if_neg h]
      simp [hc, h]
  by_cases h : (0 : ℚ) < specBaseConfidence s
  · obtain ⟨c, hf, hfold⟩ :=
      (foldl_bestStep_find s intentPatterns (.general_question, 0)).1 (by rw [hM]; exact h)
    rw [bestMatchOf, hfold, specIntentType, specMatchedCats, find?_filter_comm, ← hpred, hf]
  · have hempty : specMatchedCats s = [] := by
      cases hsm : specMatchedCats s with
      | nil => rfl
      | cons c cs =>
        have : 1 / 2 ≤ specBaseConfidence s :=
          specBase_pos_of_matched s c (hsm ▸ List.mem_cons_self c cs)
        linarith
    have hfold := (foldl_bestStep_find s intentPatterns (.general_question, 0)).2
      (by rw [hM]; exact h)
    rw [bestMatchOf, hfold, specIntentType, hempty]
    rfl

theorem analyzeIntent_proj (q : String) (p : PartialPrefs) :
    (analyzeIntent q p).confidence =
      (if (matchedKeywords (normalizeQuery q)).length > 0 &&
           qlt (mkRat 3 10) (bestMatchOf (normalizeQuery q)).2 then
         qmin (mkRat 95 100) (qadd (bestMatchOf (normalizeQuery q)).2
           (qmul (qnat (matchedKeywords (normalizeQuery q)).length) (mkRat 1 10)))
       else (bestMatchOf (normalizeQuery q)).2) ∧
    (analyzeIntent q p).intentType = (bestMatchOf (normalizeQuery q)).1 := by
  simp only [analyzeIntent]
  split_ifs <;> exact ⟨rfl, rfl⟩

/-- C4: for every query and preferences, the confidence `analyzeIntent`
returns equals the spec's formula — the maximum over matched categories of
`min(0.9, 0.3 + 0.2·matches)` (0 with the catch-all category when nothing
matches, first category winning ties), boosted once by `0.1` per matched
technology keyword and clamped at 0.95 when a keyword matched and the base
confidence exceeds 0.3 — and is always at most 0.95. -/
theorem analyzeIntent_confidence_formula (query : String) (preferences : PartialPrefs) :
    (analyzeIntent query preferences).confidence = specConfidence query ∧
    (analyzeIntent query preferences).intentType = specIntentType (normalizeQuery query) ∧
    (analyzeIntent query preferences).confidence ≤ 95 / 100 := by
  obtain ⟨hconf, htype⟩ := analyzeIntent_proj query preferences
  have h3 : (mkRat 3 10 : ℚ) = 3 / 10 := by rw [Rat.mkRat_eq_div]; norm_num
  have h95 : (mkRat 95 100 : ℚ) = 95 / 100 := by rw [Rat.mkRat_eq_div]; norm_num
  have h110 : (mkRat 1 10 : ℚ) = 1 / 10 := by rw [Rat.mkRat_eq_div]; norm_num
  have hbase := bestMatchOf_conf_spec (normalizeQuery query)
  have hb910 : specBaseConfidence (normalizeQuery query) ≤ 9 / 10 := by
    rw [specBaseConfidence]
    apply foldl_max_le
    · intro x hx
      obtain ⟨c, _, rfl⟩ := List.mem_map.mp hx
      exact min_le_left _ _
    · norm_num
  have hcond : ((matchedKeywords (normalizeQuery query)).length > 0 &&
      qlt (mkRat 3 10) (bestMatchOf (normalizeQuery query)).2) = true ↔
      (0 < (matchedKeywords (normalizeQuery query)).length ∧
        3 / 10 < specBaseConfidence (normalizeQuery query)) := by
    rw [Bool.and_eq_true, qlt_iff, hbase, h3]
    simp
  have hconf' : (analyzeIntent query preferences).confidence = specConfidence query := by
    rw [hconf, specConfidence]
    by_cases hc : 0 < (matchedKeywords (normalizeQuery query)).length ∧
        3 / 10 < specBaseConfidence (normalizeQuery query)
    · rw [if_pos (hcond.mpr hc), if_pos hc, qmin_eq, qadd_eq, qmul_eq, qnat_eq, hbase,
        h95, h110]
    · rw [if_neg (fun hb => hc (hcond.mp hb)), if_neg hc, hbase]
  refine ⟨hconf', htype.trans (bestMatchOf_type_spec _), ?_⟩
  rw [hconf]
  by_cases hb : ((matchedKeywords (normalizeQuery query)).length > 0 &&
      qlt (mkRat 3 10) (bestMatchOf (normalizeQuery query)).2) = true
  · rw [if_pos hb, qmin_eq, h95]
    exact min_le_left _ _
  · rw [if_neg hb, hbase]
    linarith

/- ### C6: the Spring Boot scenario -/

/-- C6: for `"Spring Boot best practices for microservices"` with default
preferences, the intent is `best_practices` with `shouldUseMCP = true`, and
the planned strategy is a catalog (`mcp_search`) step at `high` priority
followed by a `web_search` step at `fallback` priority. -/
theorem springQuery_strategy :
    (analyzeIntent springQuery {}).intentType = IntentType.best_practices ∧
    (analyzeIntent springQuery {}).shouldUseMCP = true ∧
    (createSearchStrategy springQuery {}).steps.map (fun st => (st.type, st.priority)) =
      [(StepType.mcp_search, StepPriority.high),
       (StepType.web_search, StepPriority.fallback)] := by
  decide

/- ### C5: both backends fail -/

/-- C5: when the strategy plans two steps and both backend capabilities
reject every call, `search` returns normally with an empty result list, a
search path of exactly two failure entries (`success = false`,
`resultCount = 0`), and a recommendations list. -/
theorem search_both_backends_fail (query : String) (prefs : MCPPreferences)
    (pv : String → Except String PreviewResult) (em ew : String) (tel : TelemetryState)
    (h2 : (createSearchStrategy query prefs.toPartial).steps.length = 2) :
    (search ⟨fun _ => .error em, pv, fun _ _ => .error ew⟩ prefs query tel).1.results = [] ∧
    (search ⟨fun _ => .error em, pv, fun _ _ => .error ew⟩ prefs query
        tel).1.searchPath.map (fun p => (p.success, p.resultCount)) =
      [(false, 0), (false, 0)] ∧
    (search ⟨fun _ => .error em, pv, fun _ _ => .error ew⟩ prefs query
        tel).1.recommendations =
      generateRecommendations [] (createSearchStrategy query prefs.toPartial) := by
  obtain ⟨a, b, hsteps⟩ := List.length_eq_two.mp h2
  obtain ⟨ta, qa, pa, ra⟩ := a
  obtain ⟨tb, qb, pb, rb⟩ := b
  cases ta <;> cases tb <;>
    simp [search, hsteps, searchLoop, performMCPSearch, performWebSearch, failEntry,
      sortResults, jsStableSort, List.insertionSort]

/-- Witness for C5 at a concrete two-step query. -/
theorem search_both_backends_fail_witness :
    (search ⟨fun _ => .error "e", fun _ => .error "p", fun _ _ => .error "w"⟩
        defaultPreferences cleanQuery telInit).1.results = [] :=
  (search_both_backends_fail cleanQuery defaultPreferences (fun _ => .error "p") "e" "w"
    telInit (by decide)).1

/- ### C10: every search records exactly one consultation event -/

theorem trackEvent_step (s : TelemetryState) (e : EventInput) (hen : s.enabled = true)
    (hroom : s.events.length + 1 ≤ 1000) :
    (trackEvent e s).events = s.events ++ [mkTimestamped e] ∧
      (trackEvent e s).enabled = true := by
  rw [trackEvent]
  simp only [hen, Bool.not_true, Bool.false_eq_true, if_false]
  rw [if_neg (by simp only [List.length_append, List.length_singleton]; omega)]
  exact ⟨rfl, by simp [hen]⟩


theorem createSearchStrategy_steps (q : String) (p : PartialPrefs) :
    (createSearchStrategy q p).steps = planSearchSteps (analyzeIntent q p) (mergePrefs p) :=
  rfl

theorem planSearchSteps_length_le (intent : QueryIntent) (prefs : MCPPreferences) :
    (planSearchSteps intent prefs).length ≤ 2 := by
  rw [planSearchSteps]
  split_ifs <;> simp

theorem performMCPSearch_events (ctx : RouterCtx) (query : String)
    (strategy : SearchStrategy) (tel : TelemetryState) (hen : tel.enabled = true)
    (hroom : tel.events.length + 1 ≤ 1000) :
    ∃ ev : TelemetryEvent, ev.eventType ≠ EvType.mcp_consulted ∧
      (performMCPSearch ctx query strategy tel).2.1.events = tel.events ++ [ev] ∧
      (performMCPSearch ctx query strategy tel).2.1.enabled = true := by
  rw [performMCPSearch]
  cases hm : ctx.mcpSearchFn query with
  | error e =>
    simp only [trackMCPResourcesNotFound]
    exact ⟨_, by simp [mkTimestamped], (trackEvent_step tel _ hen hroom).1,
      (trackEvent_step tel _ hen hroom).2⟩
  | ok items =>
    by_cases hl : ((items.take 5).map fun item =>
        let relevanceScore := calculateMCPRelevance item query
        let base : SearchResult :=
          { source := .mcp
            title := item.title
            url := some item.rawUrl
            relevanceScore := relevanceScore
            type := some item.type }
        if qlt (mkRat 7 10) relevanceScore then
          match ctx.mcpPreviewFn item.path with
          | .ok preview => { base with content := some (truncateContent preview.content 500) }
          | .error _ => base
        else base).length > 0
    · simp only [if_pos hl, trackMCPResourcesFound]
      exact ⟨_, by simp [mkTimestamped], (trackEvent_step tel _ hen hroom).1,
        (trackEvent_step tel _ hen hroom).2⟩
    · simp only [if_neg hl, trackMCPResourcesNotFound]
      exact ⟨_, by simp [mkTimestamped], (trackEvent_step tel _ hen hroom).1,
        (trackEvent_step tel _ hen hroom).2⟩

theorem searchLoop_events (ctx : RouterCtx) (prefs : MCPPreferences) (query : String)
    (strategy : SearchStrategy) (steps : List SearchStep) :
    ∀ st : LoopState, st.tel.enabled = true →
      st.tel.events.length + steps.length ≤ 1000 →
      ∃ rest : List TelemetryEvent,
        (searchLoop ctx prefs query strategy steps st).tel.events =
          st.tel.events ++ rest ∧
        (searchLoop ctx prefs query strategy steps st).tel.enabled = true ∧
        rest.length ≤ steps.length ∧
        ∀ ev ∈ rest, ev.eventType ≠ EvType.mcp_consulted := by
  induction steps with
  | nil =>
    intro st hen _
    exact ⟨[], by simp [searchLoop], by simp [searchLoop, hen], by simp, by simp⟩
  | cons step rest ih =>
    intro st hen hroom
    rw [List.length_cons] at hroom
    have hroom1 : st.tel.events.length + 1 ≤ 1000 := by omega
    cases hty : step.type with
    | mcp_search =>
      obtain ⟨ev, hev, hevents, henabled⟩ :=
        performMCPSearch_events ctx step.query strategy st.tel hen hroom1
      cases hp : performMCPSearch ctx step.query strategy st.tel with
      | mk ores tpair =>
        obtain ⟨tel2, entries2⟩ := tpair
        rw [hp] at hevents henabled
        simp only at hevents henabled
        have hlen2 : tel2.events.length = st.tel.events.length + 1 := by
          rw [hevents]
          simp
        cases ores with
        | none =>
          simp only [searchLoop, hty, hp]
          obtain ⟨r, hr1, hr2, hr3, hr4⟩ := ih
            { st with
                sourcesUsed := st.sourcesUsed ++ ["mcp"]
                tel := tel2
                searchPath := st.searchPath ++ entries2 ++
                  [failEntry StepType.mcp_search step.query] }
            henabled (by simp only; omega)
          refine ⟨ev :: r, ?_, hr2, by simp only [List.length_cons]; omega, ?_⟩
          · rw [hr1]
            simp only
            rw [hevents, List.append_assoc]
            rfl
          · intro e he
            rcases List.mem_cons.mp he with rfl | he'
            · exact hev
            · exact hr4 e he'
        | some res =>
          simp only [searchLoop, hty, hp]
          split
          · exact ⟨[ev], by simp only; exact hevents, henabled, by simp, by
              intro e he
              rcases List.mem_singleton.mp he with rfl
              exact hev⟩
          · split
            · exact ⟨[ev], by simp only; exact hevents, henabled, by simp, by
                intro e he
                rcases List.mem_singleton.mp he with rfl
                exact hev⟩
            · obtain ⟨r, hr1, hr2, hr3, hr4⟩ := ih
                { st with
                    results := st.results ++ res
                    sourcesUsed := st.sourcesUsed ++ ["mcp"]
                    tel := tel2
                    searchPath := st.searchPath ++ entries2 }
                henabled (by simp only; omega)
              refine ⟨ev :: r, ?_, hr2, by simp only [List.length_cons]; omega, ?_⟩
              · rw [hr1]
                simp only
                rw [hevents, List.append_assoc]
                rfl
              · intro e he
                rcases List.mem_cons.mp he with rfl | he'
                · exact hev
                · exact hr4 e he'
    | web_search =>
      cases hw : performWebSearch ctx step.query with
      | none =>
        simp only [searchLoop, hty, hw]
        obtain ⟨r, hr1, hr2, hr3, hr4⟩ := ih
          { st with
              sourcesUsed := st.sourcesUsed ++ ["web"]
              searchPath := st.searchPath ++ [failEntry StepType.web_search step.query] }
          hen (by simp only; omega)
        exact ⟨r, by rw [hr1], hr2, by simp only [List.length_cons]; omega, hr4⟩
      | some pr =>
        obtain ⟨res, entry⟩ := pr
        simp only [searchLoop, hty, hw, trackFallbackToWeb]
        obtain ⟨htr1, htr2⟩ := trackEvent_step st.tel
          { eventType := .fallback_to_web
            query := query
            source := .web
            resultCount := (((st.results ++ res).filter
              fun r => r.source = EvSource.mcp)).length
            success := true
            duration := 0
            metadata := some { (strategyMeta strategy).getD {} with
              fallbackReason := some (if step.priority = StepPriority.fallback then
                  "Insufficient MCP results" else "Primary web search")
              searchPath := some ["mcp", "web"] } } hen hroom1
        obtain ⟨r, hr1, hr2, hr3, hr4⟩ := ih
          { st with
              results := st.results ++ res
              sourcesUsed := st.sourcesUsed ++ ["web"]
              searchPath := st.searchPath ++ [entry]
              tel := trackEvent
                { eventType := .fallback_to_web
                  query := query
                  source := .web
                  resultCount := (((st.results ++ res).filter
                    fun r => r.source = EvSource.mcp)).length
                  success := true
                  duration := 0
                  metadata := some { (strategyMeta strategy).getD {} with
                    fallbackReason := some (if step.priority = StepPriority.fallback then
                        "Insufficient MCP results" else "Primary web search")
                    searchPath := some ["mcp", "web"] } } st.tel }
          (by simp only; exact htr2)
          (by simp only; rw [htr1]; simp only [List.length_append,
                List.length_singleton]; omega)
        refine ⟨mkTimestamped
          { eventType := .fallback_to_web
            query := query
            source := .web
            resultCount := (((st.results ++ res).filter
              fun r => r.source = EvSource.mcp)).length
            success := true
            duration := 0
            metadata := some { (strategyMeta strategy).getD {} with
              fallbackReason := some (if step.priority = StepPriority.fallback then
                  "Insufficient MCP results" else "Primary web search")
              searchPath := some ["mcp", "web"] } } :: r, ?_, hr2,
          by simp only [List.length_cons]; omega, ?_⟩
        · rw [hr1]
          simp only
          rw [htr1, List.append_assoc]
          rfl
        · intro e he
          rcases List.mem_cons.mp he with rfl | he'
          · simp [mkTimestamped]
          · exact hr4 e he'

theorem trackMCPConsultation_events (q : String) (d : ℚ) (md : Option EvMetadata)
    (s : TelemetryState) (hen : s.enabled = true) (hroom : s.events.length + 1 ≤ 1000) :
    (trackMCPConsultation q d md s).events = s.events ++
      [mkTimestamped
        { eventType := .mcp_consulted
          query := q
          source := .mcp
          resultCount := 0
          success := true
          duration := d
          metadata := md }] ∧
    (trackMCPConsultation q d md s).enabled = true := by
  simp only [trackMCPConsultation]
  exact ⟨(trackEvent_step s _ hen hroom).1, (trackEvent_step s _ hen hroom).2⟩

theorem trackSearchCompleted_events (q : String) (n : Nat) (d : ℚ) (srcs : List String)
    (md : Option EvMetadata) (s : TelemetryState) (hen : s.enabled = true)
    (hroom : s.events.length + 1 ≤ 1000) :
    ∃ fev : TelemetryEvent, fev.eventType ≠ EvType.mcp_consulted ∧
      (trackSearchCompleted q n d srcs md s).events = s.events ++ [fev] ∧
      (trackSearchCompleted q n d srcs md s).enabled = true := by
  simp only [trackSearchCompleted]
  exact ⟨_, by simp [mkTimestamped], (trackEvent_step s _ hen hroom).1,
    (trackEvent_step s _ hen hroom).2⟩

theorem getStats_totalConsultations (events : List TelemetryEvent)
    (h : events.length ≠ 0) :
    (getStats events).totalConsultations =
      (events.filter fun e => e.eventType = EvType.mcp_consulted).length := by
  rw [getStats, if_neg h]

/-- C10: every `search` call on an enabled telemetry state (with room under
the event cap) appends exactly one `mcp_consulted` event — with source
`mcp`, `resultCount` 0, duration 0, `success = true` — before any strategy
step's events, whatever the strategy and backends are; consequently
`getStats` counts one consultation per search. -/
theorem search_consults_once (ctx : RouterCtx) (prefs : MCPPreferences) (query : String)
    (tel : TelemetryState) (hen : tel.enabled = true)
    (hroom : tel.events.length + 4 ≤ 1000) :
    ∃ (c : TelemetryEvent) (rest : List TelemetryEvent),
      (search ctx prefs query tel).2.events = tel.events ++ c :: rest ∧
      c.eventType = EvType.mcp_consulted ∧ c.query = query ∧ c.source = EvSource.mcp ∧
      c.resultCount = 0 ∧ c.duration = 0 ∧ c.success = true ∧
      (∀ ev ∈ rest, ev.eventType ≠ EvType.mcp_consulted) ∧
      (getStats (search ctx prefs query tel).2.events).totalConsultations =
        (tel.events.filter fun e => e.eventType = EvType.mcp_consulted).length + 1 := by
  have hstepslen : (createSearchStrategy query prefs.toPartial).steps.length ≤ 2 := by
    rw [createSearchStrategy_steps]
    exact planSearchSteps_length_le _ _
  obtain ⟨hc1, hc2⟩ := trackMCPConsultation_events query 0
    (strategyMeta (createSearchStrategy query prefs.toPartial)) tel hen (by omega)
  obtain ⟨r, hr1, hr2, hr3, hr4⟩ := searchLoop_events ctx prefs query
    (createSearchStrategy query prefs.toPartial)
    (createSearchStrategy query prefs.toPartial).steps
    { results := []
      searchPath := []
      sourcesUsed := []
      tel := trackMCPConsultation query 0
        (strategyMeta (createSearchStrategy query prefs.toPartial)) tel }
    hc2
    (by
      simp only
      rw [hc1]
      simp only [List.length_append, List.length_singleton, List.length_cons,
        List.length_nil]
      omega)
  simp only at hr1
  rw [hc1] at hr1
  have hstl : (searchLoop ctx prefs query (createSearchStrategy query prefs.toPartial)
      (createSearchStrategy query prefs.toPartial).steps
      { results := []
        searchPath := []
        sourcesUsed := []
        tel := trackMCPConsultation query 0
          (strategyMeta (createSearchStrategy query prefs.toPartial)) tel
        }).tel.events.length + 1 ≤ 1000 := by
    rw [hr1]
    simp only [List.length_append, List.length_singleton, List.length_cons,
      List.length_nil]
    omega
  obtain ⟨fev, hfev, hf1, hf2⟩ := trackSearchCompleted_events query
    (sortResults prefs.mcpFirst (searchLoop ctx prefs query
      (createSearchStrategy query prefs.toPartial)
      (createSearchStrategy query prefs.toPartial).steps
      { results := []
        searchPath := []
        sourcesUsed := []
        tel := trackMCPConsultation query 0
          (strategyMeta (createSearchStrategy query prefs.toPartial)) tel
        }).results).length 0
    (searchLoop ctx prefs query (createSearchStrategy query prefs.toPartial)
      (createSearchStrategy query prefs.toPartial).steps
      { results := []
        searchPath := []
        sourcesUsed := []
        tel := trackMCPConsultation query 0
          (strategyMeta (createSearchStrategy query prefs.toPartial)) tel
        }).sourcesUsed
    (strategyMeta (createSearchStrategy query prefs.toPartial))
    (searchLoop ctx prefs query (createSearchStrategy query prefs.toPartial)
      (createSearchStrategy query prefs.toPartial).steps
      { results := []
        searchPath := []
        sourcesUsed := []
        tel := trackMCPConsultation query 0
          (strategyMeta (createSearchStrategy query prefs.toPartial)) tel
        }).tel
    hr2 hstl
  have hmain : (search ctx prefs query tel).2.events =
      tel.events ++ mkTimestamped
        { eventType := .mcp_consulted
          query := query
          source := .mcp
          resultCount := 0
          success := true
          duration := 0
          metadata := strategyMeta (createSearchStrategy query prefs.toPartial) } ::
        (r ++ [fev]) := by
    have h1 : (search ctx prefs query tel).2.events =
        (searchLoop ctx prefs query (createSearchStrategy query prefs.toPartial)
          (createSearchStrategy query prefs.toPartial).steps
          { results := []
            searchPath := []
            sourcesUsed := []
            tel := trackMCPConsultation query 0
              (strategyMeta (createSearchStrategy query prefs.toPartial)) tel
            }).tel.events ++ [fev] := hf1
    rw [h1, hr1]
    simp [List.append_assoc]
  refine ⟨mkTimestamped
    { eventType := .mcp_consulted
      query := query
      source := .mcp
      resultCount := 0
      success := true
      duration := 0
      metadata := strategyMeta (createSearchStrategy query prefs.toPartial) },
    r ++ [fev], hmain, rfl, rfl, rfl, rfl, rfl, rfl, ?_, ?_⟩
  · intro ev hev
    rcases List.mem_append.mp hev with h | h
    · exact hr4 ev h
    · rcases List.mem_singleton.mp h with rfl
      exact hfev
  · have hne : ((search ctx prefs query tel).2.events).length ≠ 0 := by
      rw [hmain]
      simp
    rw [getStats_totalConsultations _ hne, hmain]
    have hnil : (r ++ [fev]).filter
        (fun e => decide (e.eventType = EvType.mcp_consulted)) = [] := by
      rw [List.filter_eq_nil_iff]
      intro a ha
      rcases List.mem_append.mp ha with h | h
      · simpa using hr4 a h
      · rcases List.mem_singleton.mp h with rfl
        simpa using hfev
    rw [List.filter_append, List.filter_cons]
    simp [hnil, mkTimestamped]

/- ### C1: the fallback-priority web step is not skipped -/

/-- C1 (divergence witness): with the catalog backend returning three
results for the `high`-priority step and `fallbackToWeb = true`, the
strategy plans a `fallback`-priority `web_search` step, the accumulated
count is already 3 when that step runs — and yet the web backend **is**
invoked: the trace records a completed web search (and no skip entry), and
a web result is merged.  The skip check of the source sits inside the
`mcp_search` branch, while fallback-priority steps are always
`web_search`, so it can never fire. -/
theorem fallback_step_not_skipped :
    ((search ctxThree defaultPreferences cleanQuery telInit).1.strategy.steps.map
        fun st => (st.type, st.priority)) =
      [(StepType.mcp_search, StepPriority.high),
       (StepType.web_search, StepPriority.fallback)] ∧
    ((search ctxThree defaultPreferences cleanQuery telInit).1.searchPath.map (·.action)) =
      ["MCP search completed", "Web search completed"] ∧
    ((search ctxThree defaultPreferences cleanQuery telInit).1.results.filter
        fun r => r.source = EvSource.mcp).length = 3 ∧
    ((search ctxThree defaultPreferences cleanQuery telInit).1.results.filter
        fun r => r.source = EvSource.web).length = 1 := by
  decide

/-- Witness for C10 at a concrete context, query, and fresh telemetry. -/
theorem search_consults_once_witness :
    ∃ (c : TelemetryEvent) (rest : List TelemetryEvent),
      (search ctxFail defaultPreferences cleanQuery telInit).2.events =
        telInit.events ++ c :: rest ∧ c.eventType = EvType.mcp_consulted :=
  match search_consults_once ctxFail defaultPreferences cleanQuery telInit rfl
    (by decide) with
  | ⟨c, rest, h1, h2, _⟩ => ⟨c, rest, h1, h2⟩
